import Mathlib

/-!
Shallow embedding of the course-registration service
(src/src/controllers/courseController.ts, src/src/controllers/registrationController.ts,
src/src/utils/helpers.ts, src/unnamed/part_003 = utils/validators.ts) over an explicit
DynamoDB-style keyed store.

Modelling conventions:
- JavaScript strings are modelled as lists of characters (Str).  JS
  String.prototype.toUpperCase is modelled with Char.toUpper (they agree on the
  ASCII range relevant here), trim with dropping whitespace at both ends, and
  String.prototype.split with a structurally recursive splitter.
- The single DynamoDB table is modelled by three association lists, one per
  physical row shape actually used by the code: (PK COURSE#cid, SK METADATA)
  course rows, (PK COURSE#cid, SK REG#rid) registration-by-course rows, and
  (PK EMPLOYEE#EMAIL, SK COURSE#cid) registration-by-employee rows.  The
  structured keys are in bijection with the real composite string keys, since
  the PK and SK constructors use distinct literal markers.
- A TransactWriteCommand is one atomic store-to-store step, so each controller
  becomes a pure function from the store to a (response, store) pair; failure
  paths return the store unchanged.
- new Date(year, month, day) comparison at midnight is modelled by
  lexicographic comparison of (year, month, day) triples, which agrees with the
  JS comparison for calendar-valid dates (course creation validates its dates).
- localeCompare-based Array.prototype.sort is modelled as a stable insertion
  sort by code-point lexicographic order on the registration id.
-/

/-- JS strings as lists of characters. -/
abbrev Str := List Char

/-- Conversion from Lean string literals to the model string type. -/
def str (s : String) : Str := s.data

/-- JS String.prototype.trim (whitespace stripped from both ends). -/
def trimStr (l : Str) : Str :=
  ((l.dropWhile Char.isWhitespace).reverse.dropWhile Char.isWhitespace).reverse

/-- JS String.prototype.toUpperCase restricted to the ASCII behaviour. -/
def upper (l : Str) : Str := l.map Char.toUpper

/-- JS String.prototype.split with separator "-".  "".split yields [""]. -/
def splitDash : Str → List Str
  | [] => [[]]
  | c :: cs =>
    match splitDash cs with
    | [] => [[c]]
    | p :: ps => if c = '-' then [] :: p :: ps else (c :: p) :: ps

/-- JS Array.prototype.join with separator "-". -/
def joinDash : List Str → Str
  | [] => []
  | [p] => p
  | p :: q :: ps => p ++ ('-' :: joinDash (q :: ps))

/-- Bool test that the first list is an initial segment of the second. -/
def isPre : Str → Str → Bool
  | [], _ => true
  | _ :: _, [] => false
  | c :: cs, d :: ds => if c = d then isPre cs ds else false

/-- Split at the first occurrence of a character, if any. -/
def splitFirst (c : Char) : Str → Option (Str × Str)
  | [] => none
  | d :: ds =>
    if d = c then some ([], ds)
    else (splitFirst c ds).map (fun p => (d :: p.1, p.2))

/-! ### validators.ts -/

/-- Character class of the local part of the email regex: [a-zA-Z0-9._-]. -/
def emailLocalChar (c : Char) : Bool :=
  c.isAlphanum || c == '.' || c == '_' || c == '-'

/-- Character class of the domain part of the email regex: [a-zA-Z0-9.-]. -/
def emailDomainChar (c : Char) : Bool :=
  c.isAlphanum || c == '.' || c == '-'

/-- validators.ts isValidEmail: full match of the trimmed input against
the anchored regex local@domain.tld.  The regex matches exactly when the
string splits at its unique at-sign and at the last dot after it into a
nonempty local part over its class, a nonempty domain over its class, and an
alphabetic top-level domain of length at least two. -/
def isValidEmail (e : Str) : Bool :=
  let t := trimStr e
  match splitFirst '@' t with
  | none => false
  | some (lp, rest) =>
    match splitFirst '.' rest.reverse with
    | none => false
    | some (tldRev, domRev) =>
      let tld := tldRev.reverse
      let dom := domRev.reverse
      decide (lp ≠ []) && lp.all emailLocalChar &&
      decide (dom ≠ []) && dom.all emailDomainChar &&
      decide (2 ≤ tld.length) && tld.all Char.isAlpha

/-- validators.ts isValidCourseIdFormat: trimmed id starts with OFFERING-,
has at least three hyphen-separated parts, all nonempty. -/
def isValidCourseIdFormat (courseId : Str) : Bool :=
  let t := trimStr courseId
  isPre (str "OFFERING-") t &&
  (let ps := splitDash t
   decide (3 ≤ ps.length) && ps.all (fun p => decide (p ≠ [])))

/-- validators.ts isValidRegistrationIdFormat: trimmed id has at least four
hyphen-separated parts, the second being OFFERING, all nonempty. -/
def isValidRegistrationIdFormat (registrationId : Str) : Bool :=
  let ps := splitDash (trimStr registrationId)
  decide (4 ≤ ps.length) &&
  (match ps with
   | _ :: b :: _ => decide (b = str "OFFERING")
   | _ => false) &&
  ps.all (fun p => decide (p ≠ []))

/-- Numeric value of a decimal digit character. -/
def digitVal (c : Char) : Nat := c.toNat - 48

/-- Decimal reading of a digit string (the parseInt calls in the code are only
reached on all-digit substrings). -/
def digitsToNat (l : Str) : Nat := l.foldl (fun a c => a * 10 + digitVal c) 0

/-- A calendar date as a (year, month, day) triple; months are 1-based as
written in the DDMMYYYY encoding. -/
abbrev Date3 := Nat × Nat × Nat

/-- Parse a DDMMYYYY string into (year, month, day); none unless the string is
exactly eight digits.  This models the guarded parse in allotCourse, where a
non-8-character or non-numeric start date silently skips the date check
(parseInt of a non-digit prefix gives NaN and every NaN comparison is false). -/
def parseDDMMYYYY (l : Str) : Option Date3 :=
  if l.length = 8 ∧ l.all Char.isDigit then
    some (digitsToNat ((l.drop 4).take 4), digitsToNat ((l.drop 2).take 2),
          digitsToNat (l.take 2))
  else none

/-- Strict lexicographic comparison of (year, month, day) triples, modelling
the midnight-normalized JS Date comparison. -/
def dateLT (a b : Date3) : Bool :=
  if a.1 < b.1 then true
  else if b.1 < a.1 then false
  else if a.2.1 < b.2.1 then true
  else if b.2.1 < a.2.1 then false
  else decide (a.2.2 < b.2.2)

/-- validators.ts daysInMonth table with the leap-year rule. -/
def daysInMonth (year month : Nat) : Nat :=
  if month = 2 then
    if (year % 4 = 0 ∧ year % 100 ≠ 0) ∨ year % 400 = 0 then 29 else 28
  else if month = 4 ∨ month = 6 ∨ month = 9 ∨ month = 11 then 30 else 31

/-- validators.ts isValidDateFormat: eight digits encoding a calendar-valid
DDMMYYYY date with year between 1900 and 2100. -/
def isValidDateFormat (l : Str) : Bool :=
  if l.length = 8 ∧ l.all Char.isDigit then
    let day := digitsToNat (l.take 2)
    let month := digitsToNat ((l.drop 2).take 2)
    let year := digitsToNat ((l.drop 4).take 4)
    decide (1 ≤ month ∧ month ≤ 12 ∧ 1 ≤ day ∧ day ≤ daysInMonth year month ∧
            1900 ≤ year ∧ year ≤ 2100)
  else false

/-! ### helpers.ts -/

/-- helpers.ts generateCourseId: OFFERING-NAME-INSTRUCTOR, uppercased. -/
def generateCourseId (courseName instructorName : Str) : Str :=
  str "OFFERING-" ++ upper courseName ++ ('-' :: upper instructorName)

/-- helpers.ts generateRegistrationId: EMPLOYEE-COURSEID with the employee
name uppercased. -/
def generateRegistrationId (employeeName courseId : Str) : Str :=
  upper employeeName ++ ('-' :: courseId)

/-- helpers.ts extractCourseIdFromRegistration: drop the first
hyphen-delimited segment and rejoin the remainder with hyphens. -/
def extractCourseIdFromRegistration (registrationId : Str) : Str :=
  joinDash ((splitDash registrationId).drop 1)

/-! ### Data model: the rows the controllers read and write -/

/-- Registration status values actually stored (constants.ts
RegistrationStatus, minus the error marker that is never written to a row). -/
inductive RegStatus where
  | ACCEPTED
  | CONFIRMED
  | COURSE_CANCELED
deriving DecidableEq, Repr

/-- CourseOffering METADATA row.  course_status is absent until allotment. -/
structure CourseItem where
  course_id : Str
  course_name : Str
  instructor_name : Str
  start_date : Str
  min_employees : Int
  max_employees : Int
  current_count : Int
  is_allotted : Bool
  course_status : Option RegStatus
deriving DecidableEq, Repr

/-- Registration-by-course row (PK COURSE#cid, SK REG#rid). -/
structure RegItem where
  registration_id : Str
  employee_name : Str
  email : Str
  course_id : Str
  status : RegStatus
  created_at : Str
deriving DecidableEq, Repr

/-- Registration-by-employee row (PK EMPLOYEE#EMAIL, SK COURSE#cid); the code
stores no email attribute on this copy. -/
structure EmpItem where
  registration_id : Str
  employee_name : Str
  course_id : Str
  status : RegStatus
deriving DecidableEq, Repr

/-- One element of the allotCourse response payload. -/
structure AllotEntry where
  registration_id : Str
  email : Str
  course_name : Str
  course_id : Str
  status : RegStatus
deriving DecidableEq, Repr

/-! ### Association-list primitives for the keyed store -/

/-- Point lookup (DynamoDB GetCommand): first binding of the key. -/
def alGet [DecidableEq κ] (l : List (κ × α)) (k : κ) : Option α :=
  match l with
  | [] => none
  | (k1, v) :: t => if k1 = k then some v else alGet t k

/-- Unconditional put (DynamoDB Put / upserting Update): replace the first
binding of the key, or append a fresh binding. -/
def alPut [DecidableEq κ] (l : List (κ × α)) (k : κ) (v : α) : List (κ × α) :=
  match l with
  | [] => [(k, v)]
  | (k1, v1) :: t => if k1 = k then (k, v) :: t else (k1, v1) :: alPut t k v

/-- Unconditional delete (DynamoDB Delete): remove every binding of the key. -/
def alDel [DecidableEq κ] (l : List (κ × α)) (k : κ) : List (κ × α) :=
  match l with
  | [] => []
  | (k1, v1) :: t => if k1 = k then alDel t k else (k1, v1) :: alDel t k

/-- The single table, split by the three row shapes the code uses.  courses is
keyed by course_id, regs by (course_id, registration_id), emps by
(UPPER(email), course_id). -/
structure Store where
  courses : List (Str × CourseItem)
  regs : List ((Str × Str) × RegItem)
  emps : List ((Str × Str) × EmpItem)
deriving DecidableEq

/-- The empty table. -/
def emptyStore : Store := ⟨[], [], []⟩

/-- Get-by-key of a course METADATA row. -/
def getCourse (s : Store) (cid : Str) : Option CourseItem := alGet s.courses cid

/-- Get-by-key of a registration-by-course row. -/
def getReg (s : Store) (cid rid : Str) : Option RegItem := alGet s.regs (cid, rid)

/-- Get-by-key of a registration-by-employee row. -/
def getEmp (s : Store) (email cid : Str) : Option EmpItem := alGet s.emps (email, cid)

/-- Query-by-prefix (PK = COURSE#cid, SK begins_with REG#): all
registration-by-course rows of one course. -/
def rowsFor (l : List ((Str × Str) × RegItem)) (cid : Str) : List RegItem :=
  match l with
  | [] => []
  | (k, v) :: t => if k.1 = cid then v :: rowsFor t cid else rowsFor t cid

/-- Number of registration-by-course rows of one course. -/
def keyCount (l : List ((Str × Str) × α)) (cid : Str) : Nat :=
  match l with
  | [] => 0
  | (k, _) :: t => (if k.1 = cid then 1 else 0) + keyCount t cid

/-- The per-registration Update items of the allotment transaction: set the
status of every registration row of the course.  (The code addresses each
update by the registration_id attribute of a queried row, which equals the
sort-key component of that row for every row this code base ever writes.) -/
def setStatusFor (l : List ((Str × Str) × RegItem)) (cid : Str) (st : RegStatus) :
    List ((Str × Str) × RegItem) :=
  l.map (fun kv => if kv.1.1 = cid then (kv.1, { kv.2 with status := st }) else kv)

/-! ### helpers.ts sortByRegistrationId -/

/-- Comparator of the response sort: registration_id ascending in the modelled
(code-point lexicographic) string order. -/
def entryLe (a b : AllotEntry) : Prop := a.registration_id ≤ b.registration_id

instance : DecidableRel entryLe :=
  fun a b => inferInstanceAs (Decidable (a.registration_id ≤ b.registration_id))

instance : IsTotal AllotEntry entryLe :=
  ⟨fun a b => le_total a.registration_id b.registration_id⟩

instance : IsTrans AllotEntry entryLe :=
  ⟨fun _ _ _ h h2 => le_trans h h2⟩

/-- helpers.ts sortByRegistrationId, modelled as a stable sort by
registration_id ascending. -/
def sortByRegistrationId (items : List AllotEntry) : List AllotEntry :=
  List.insertionSort entryLe items

/-! ### Controller results -/

/-- Responses of addCourseOffering, one constructor per early return. -/
inductive CreateRes where
  | inputErr
  | duplicateErr
  | ok (course_id : Str)
deriving DecidableEq, Repr

/-- Responses of registerForCourse, one constructor per early return. -/
inductive RegisterRes where
  | inputErr
  | notFound
  | canceledErr
  | allottedErr
  | duplicateErr
  | fullErr
  | ok (registration_id : Str)
deriving DecidableEq, Repr

/-- Responses of allotCourse, one constructor per early return. -/
inductive AllotRes where
  | inputErr
  | notFound
  | dateErr
  | allottedErr
  | ok (regs : List AllotEntry)
deriving DecidableEq, Repr

/-- Responses of cancelRegistration.  rejected and accepted are both HTTP 200
results carrying CANCEL_REJECTED resp. CANCEL_ACCEPTED. -/
inductive CancelRes where
  | inputErr
  | regNotFound
  | courseNotFound
  | rejected (registration_id course_id : Str)
  | accepted (registration_id course_id : Str)
deriving DecidableEq, Repr

/-! ### courseController.ts addCourseOffering -/

/-- addCourseOffering: validate, reject a duplicate course id, then one
single-item put of the METADATA row with current_count 0 and
is_allotted false. -/
def addCourseOffering (course_name instructor_name start_date : Str)
    (min_employees max_employees : Int) (today : Date3) (s : Store) :
    CreateRes × Store :=
  if course_name = [] ∨ instructor_name = [] ∨ start_date = [] then (.inputErr, s)
  else if trimStr course_name = [] ∨ trimStr instructor_name = [] ∨
          trimStr start_date = [] then (.inputErr, s)
  else if min_employees < 0 ∨ max_employees < 0 then (.inputErr, s)
  else if max_employees < min_employees then (.inputErr, s)
  else if isValidDateFormat (trimStr start_date) = false then (.inputErr, s)
  else
    match parseDDMMYYYY (trimStr start_date) with
    | none => (.inputErr, s)
    | some sd =>
      if dateLT sd today then (.inputErr, s)
      else
        let course_id := generateCourseId (trimStr course_name) (trimStr instructor_name)
        match getCourse s course_id with
        | some _ => (.duplicateErr, s)
        | none =>
          let newCourse : CourseItem :=
            { course_id := course_id
              course_name := trimStr course_name
              instructor_name := trimStr instructor_name
              start_date := trimStr start_date
              min_employees := min_employees
              max_employees := max_employees
              current_count := 0
              is_allotted := false
              course_status := none }
          (.ok course_id, { s with courses := alPut s.courses course_id newCourse })

/-! ### registrationController.ts registerForCourse -/

/-- registerForCourse: validation and read checks, then one atomic transaction
putting the by-course row, putting the by-employee row and incrementing
current_count. -/
def registerForCourse (course_id employee_name email created_at : Str)
    (s : Store) : RegisterRes × Store :=
  if employee_name = [] ∨ email = [] ∨ course_id = [] then (.inputErr, s)
  else if trimStr employee_name = [] ∨ trimStr email = [] then (.inputErr, s)
  else if isValidEmail (trimStr email) = false then (.inputErr, s)
  else if isValidCourseIdFormat course_id = false then (.inputErr, s)
  else
    match getCourse s course_id with
    | none => (.notFound, s)
    | some course =>
      if course.course_status = some .COURSE_CANCELED then (.canceledErr, s)
      else if course.is_allotted then (.allottedErr, s)
      else if (getEmp s (upper (trimStr email)) course_id).isSome then (.duplicateErr, s)
      else if course.max_employees ≤ course.current_count then (.fullErr, s)
      else
        let registration_id := generateRegistrationId (trimStr employee_name) course_id
        (.ok registration_id,
         { courses := alPut s.courses course_id
             { course with current_count := course.current_count + 1 }
           regs := alPut s.regs (course_id, registration_id)
             { registration_id := registration_id
               employee_name := trimStr employee_name
               email := trimStr email
               course_id := course_id
               status := .ACCEPTED
               created_at := created_at }
           emps := alPut s.emps (upper (trimStr email), course_id)
             { registration_id := registration_id
               employee_name := trimStr employee_name
               course_id := course_id
               status := .ACCEPTED } })

/-! ### courseController.ts allotCourse -/

/-- The guarded start-date check of allotCourse: fires only when the stored
start date is an eight-digit string strictly earlier than today. -/
def startedBefore (start_date : Str) (today : Date3) : Bool :=
  match parseDDMMYYYY start_date with
  | some d => dateLT d today
  | none => false

/-- allotCourse: validation, date and allotted checks, query of all
registrations, decision registrations ≥ min_employees, then one atomic
transaction setting every registration status and the course status fields
(or, with zero registrations, a single metadata update hardcoding
COURSE_CANCELED), and the response sorted by registration_id. -/
def allotCourse (course_id : Str) (today : Date3) (s : Store) :
    AllotRes × Store :=
  if course_id = [] then (.inputErr, s)
  else if isValidCourseIdFormat course_id = false then (.inputErr, s)
  else
    match getCourse s course_id with
    | none => (.notFound, s)
    | some course =>
      if startedBefore course.start_date today then (.dateErr, s)
      else if course.is_allotted then (.allottedErr, s)
      else
        let registrations := rowsFor s.regs course_id
        let finalStatus : RegStatus :=
          if course.min_employees ≤ (registrations.length : Int) then .CONFIRMED
          else .COURSE_CANCELED
        let s1 : Store :=
          if 0 < registrations.length then
            { s with
              regs := setStatusFor s.regs course_id finalStatus
              courses := alPut s.courses course_id
                { course with is_allotted := true, course_status := some finalStatus } }
          else
            { s with
              courses := alPut s.courses course_id
                { course with is_allotted := true,
                              course_status := some .COURSE_CANCELED } }
        let entries := registrations.map (fun r =>
          ({ registration_id := r.registration_id
             email := r.email
             course_name := course.course_name
             course_id := course_id
             status := finalStatus } : AllotEntry))
        (.ok (sortByRegistrationId entries), s1)

/-! ### registrationController.ts cancelRegistration -/

/-- cancelRegistration: validation, derive the owning course id from the
registration id, read both rows, return rejected without writes when the
course is allotted, else one atomic transaction deleting both copies and
decrementing current_count. -/
def cancelRegistration (registration_id : Str) (s : Store) : CancelRes × Store :=
  if registration_id = [] then (.inputErr, s)
  else if isValidRegistrationIdFormat registration_id = false then (.inputErr, s)
  else
    let course_id := extractCourseIdFromRegistration registration_id
    match getReg s course_id registration_id with
    | none => (.regNotFound, s)
    | some registration =>
      match getCourse s course_id with
      | none => (.courseNotFound, s)
      | some course =>
        if course.is_allotted then (.rejected registration_id course_id, s)
        else
          (.accepted registration_id course_id,
           { courses := alPut s.courses course_id
               { course with current_count := course.current_count - 1 }
             regs := alDel s.regs (course_id, registration_id)
             emps := alDel s.emps (upper registration.email, course_id) })

/-! ### Operation sequences and reachable stores -/

/-- One caller-facing operation with its already-parsed arguments; today is
the wall-clock date seen by the date checks of the call. -/
inductive Op where
  | create (course_name instructor_name start_date : Str)
      (min_employees max_employees : Int) (today : Date3)
  | register (course_id employee_name email created_at : Str)
  | allot (course_id : Str) (today : Date3)
  | cancel (registration_id : Str)

/-- Effect of one operation on the store (failed calls leave it unchanged). -/
def applyOp (s : Store) : Op → Store
  | .create n i d mn mx t => (addCourseOffering n i d mn mx t s).2
  | .register c n e ts => (registerForCourse c n e ts s).2
  | .allot c t => (allotCourse c t s).2
  | .cancel r => (cancelRegistration r s).2

/-- Stores reachable from the empty table by any sequence of operations. -/
inductive Reach : Store → Prop where
  | init : Reach emptyStore
  | step (s : Store) (op : Op) : Reach s → Reach (applyOp s op)

/-! ### Lemmas about the store primitives -/

theorem alGet_alPut_self [DecidableEq κ] (l : List (κ × α)) (k : κ) (v : α) :
    alGet (alPut l k v) k = some v := by
  induction l with
  | nil => simp [alPut, alGet]
  | cons kv t ih =>
    by_cases h : kv.1 = k
    . simp [alPut, alGet, h]
    . simp [alPut, alGet, h, ih]

theorem alGet_alPut_ne [DecidableEq κ] (l : List (κ × α)) (k k2 : κ) (v : α)
    (h : k2 ≠ k) : alGet (alPut l k v) k2 = alGet l k2 := by
  have h2 : ¬ (k = k2) := fun he => h he.symm
  induction l with
  | nil => simp [alPut, alGet, h2]
  | cons kv t ih =>
    by_cases hk : kv.1 = k
    . subst hk
      simp [alPut, alGet, h2]
    . simp only [alPut, if_neg hk, alGet]
      by_cases hk2 : kv.1 = k2
      . simp [hk2]
      . simp [hk2, ih]

theorem alGet_alDel_self [DecidableEq κ] (l : List (κ × α)) (k : κ) :
    alGet (alDel l k) k = none := by
  induction l with
  | nil => simp [alDel, alGet]
  | cons kv t ih =>
    by_cases h : kv.1 = k
    . simp [alDel, alGet, h, ih]
    . simp [alDel, alGet, h, ih]

theorem alGet_alDel_ne [DecidableEq κ] (l : List (κ × α)) (k k2 : κ)
    (h : k2 ≠ k) : alGet (alDel l k) k2 = alGet l k2 := by
  induction l with
  | nil => simp [alDel]
  | cons kv t ih =>
    by_cases hk : kv.1 = k
    . subst hk
      have h2 : ¬ (kv.1 = k2) := fun he => h he.symm
      simp [alDel, alGet, h2, ih]
    . simp only [alDel, if_neg hk, alGet]
      by_cases hk2 : kv.1 = k2
      . simp [hk2]
      . simp [hk2, ih]

theorem alGet_isSome_alPut [DecidableEq κ] (l : List (κ × α)) (k k2 : κ) (v : α)
    (h : (alGet l k2).isSome) : (alGet (alPut l k v) k2).isSome := by
  by_cases hk : k2 = k
  . rw [hk, alGet_alPut_self]; rfl
  . rw [alGet_alPut_ne l k k2 v hk]; exact h

/-- Keys bound in the list. -/
def keysOf (l : List (κ × α)) : List κ := l.map Prod.fst

theorem alGet_eq_none_iff [DecidableEq κ] (l : List (κ × α)) (k : κ) :
    alGet l k = none ↔ k ∉ keysOf l := by
  induction l with
  | nil => simp [alGet, keysOf]
  | cons kv t ih =>
    by_cases h : kv.1 = k
    . subst h
      simp [alGet, keysOf]
    . simp only [alGet, if_neg h]
      rw [ih]
      simp only [keysOf, List.map_cons, List.mem_cons, not_or]
      constructor
      . intro hn
        exact ⟨fun he => h he.symm, hn⟩
      . intro hn
        exact hn.2

theorem keysOf_alPut_none [DecidableEq κ] (l : List (κ × α)) (k : κ) (v : α)
    (h : alGet l k = none) : keysOf (alPut l k v) = keysOf l ++ [k] := by
  induction l with
  | nil => simp [alPut, keysOf]
  | cons kv t ih =>
    by_cases hk : kv.1 = k
    . simp [alGet, hk] at h
    . simp only [alGet, hk, if_neg hk] at h ⊢
      simp only [alPut, if_neg hk, keysOf, List.map_cons, List.cons_append]
      have := ih (by simpa [alGet, hk] using h)
      simpa [keysOf] using this

theorem keysOf_alPut_some [DecidableEq κ] (l : List (κ × α)) (k : κ) (v w : α)
    (h : alGet l k = some w) : keysOf (alPut l k v) = keysOf l := by
  induction l with
  | nil => simp [alGet] at h
  | cons kv t ih =>
    by_cases hk : kv.1 = k
    . simp [alPut, keysOf, hk]
    . simp only [alGet, if_neg hk] at h
      simp only [alPut, if_neg hk, keysOf, List.map_cons]
      have := ih h
      simpa [keysOf] using this

theorem nodup_keysOf_alPut [DecidableEq κ] (l : List (κ × α)) (k : κ) (v : α)
    (h : (keysOf l).Nodup) : (keysOf (alPut l k v)).Nodup := by
  cases hg : alGet l k with
  | none =>
    rw [keysOf_alPut_none l k v hg]
    have hk : k ∉ keysOf l := (alGet_eq_none_iff l k).mp hg
    simpa [List.nodup_append] using ⟨h, hk⟩
  | some w => rw [keysOf_alPut_some l k v w hg]; exact h

theorem alDel_sublist [DecidableEq κ] (l : List (κ × α)) (k : κ) :
    (alDel l k).Sublist l := by
  induction l with
  | nil => simp [alDel]
  | cons kv t ih =>
    by_cases hk : kv.1 = k
    . simp only [alDel, if_pos hk]
      exact ih.cons kv
    . simp only [alDel, if_neg hk]
      exact ih.cons₂ kv

theorem nodup_keysOf_alDel [DecidableEq κ] (l : List (κ × α)) (k : κ)
    (h : (keysOf l).Nodup) : (keysOf (alDel l k)).Nodup :=
  List.Nodup.sublist ((alDel_sublist l k).map Prod.fst) h

/-! ### Counting registration rows of one course -/

theorem rowsFor_length (l : List ((Str × Str) × RegItem)) (cid : Str) :
    (rowsFor l cid).length = keyCount l cid := by
  induction l with
  | nil => simp [rowsFor, keyCount]
  | cons kv t ih =>
    by_cases h : kv.1.1 = cid
    . simp only [rowsFor, keyCount, if_pos h, List.length_cons, ih]
      omega
    . simp only [rowsFor, keyCount, if_neg h, ih]
      omega

theorem keyCount_alPut_none (l : List ((Str × Str) × α)) (k : Str × Str) (v : α)
    (cid : Str) (h : alGet l k = none) :
    keyCount (alPut l k v) cid = keyCount l cid + (if k.1 = cid then 1 else 0) := by
  induction l with
  | nil => simp [alPut, keyCount, Nat.add_comm]
  | cons kv t ih =>
    by_cases hk : kv.1 = k
    . simp [alGet, hk] at h
    . simp only [alGet, if_neg hk] at h
      simp only [alPut, if_neg hk, keyCount, ih h]
      omega

theorem keyCount_alPut_some (l : List ((Str × Str) × α)) (k : Str × Str) (v w : α)
    (cid : Str) (h : alGet l k = some w) :
    keyCount (alPut l k v) cid = keyCount l cid := by
  induction l with
  | nil => simp [alGet] at h
  | cons kv t ih =>
    by_cases hk : kv.1 = k
    . simp [alPut, keyCount, hk]
    . simp only [alGet, if_neg hk] at h
      simp only [alPut, if_neg hk, keyCount, ih h]

theorem keyCount_alDel_ne (l : List ((Str × Str) × α)) (k : Str × Str) (cid : Str)
    (h : k.1 ≠ cid) : keyCount (alDel l k) cid = keyCount l cid := by
  induction l with
  | nil => simp [alDel]
  | cons kv t ih =>
    by_cases hk : kv.1 = k
    . subst hk
      simp [alDel, keyCount, h, ih]
    . simp only [alDel, if_neg hk, keyCount, ih]

theorem keyCount_alDel_le (l : List ((Str × Str) × α)) (k : Str × Str) (cid : Str) :
    keyCount (alDel l k) cid ≤ keyCount l cid := by
  induction l with
  | nil => simp [alDel]
  | cons kv t ih =>
    by_cases hk : kv.1 = k
    . simp only [alDel, if_pos hk, keyCount]
      omega
    . simp only [alDel, if_neg hk, keyCount]
      omega

theorem alDel_of_none [DecidableEq κ] (l : List (κ × α)) (k : κ)
    (h : alGet l k = none) : alDel l k = l := by
  induction l with
  | nil => simp [alDel]
  | cons kv t ih =>
    by_cases hk : kv.1 = k
    . simp [alGet, hk] at h
    . simp only [alGet, if_neg hk] at h
      simp [alDel, hk, ih h]

theorem keyCount_alDel_nodup (l : List ((Str × Str) × α)) (k : Str × Str) (w : α)
    (cid : Str) (hn : (keysOf l).Nodup) (h : alGet l k = some w) (hk : k.1 = cid) :
    keyCount (alDel l k) cid + 1 = keyCount l cid := by
  induction l with
  | nil => simp [alGet] at h
  | cons kv t ih =>
    simp only [keysOf, List.map_cons, List.nodup_cons] at hn
    by_cases hkv : kv.1 = k
    . have hnone : alGet t k = none := by
        apply (alGet_eq_none_iff t k).mpr
        rw [← hkv]
        exact hn.1
      simp only [alDel, if_pos hkv, alDel_of_none t k hnone, keyCount]
      have h1 : kv.1.1 = cid := by rw [hkv]; exact hk
      simp only [if_pos h1]
      omega
    . simp only [alGet, if_neg hkv] at h
      simp only [alDel, if_neg hkv, keyCount]
      have := ih hn.2 h
      omega

theorem keyCount_pos_exists (l : List ((Str × Str) × α)) (cid : Str)
    (h : 0 < keyCount l cid) : ∃ rid v, alGet l (cid, rid) = some v := by
  induction l with
  | nil => simp [keyCount] at h
  | cons kv t ih =>
    by_cases hk : kv.1.1 = cid
    . refine ⟨kv.1.2, ?_⟩
      have : kv.1 = (cid, kv.1.2) := by
        rw [← hk]
      refine ⟨kv.2, ?_⟩
      simp [alGet, ← this]
    . simp only [keyCount, if_neg hk, Nat.zero_add] at h
      obtain ⟨rid, v, hv⟩ := ih h
      refine ⟨rid, v, ?_⟩
      have : kv.1 ≠ (cid, rid) := by
        intro he
        exact hk (by rw [he])
      simp [alGet, this, hv]

theorem keyCount_setStatusFor (l : List ((Str × Str) × RegItem)) (cid2 : Str)
    (st : RegStatus) (cid : Str) :
    keyCount (setStatusFor l cid2 st) cid = keyCount l cid := by
  induction l with
  | nil => rfl
  | cons kv t ih =>
    simp only [setStatusFor, List.map_cons] at ih ⊢
    by_cases hk : kv.1.1 = cid2
    . rw [if_pos hk]
      simp only [keyCount, ih]
    . rw [if_neg hk]
      simp only [keyCount, ih]

theorem keysOf_setStatusFor (l : List ((Str × Str) × RegItem)) (cid2 : Str)
    (st : RegStatus) : keysOf (setStatusFor l cid2 st) = keysOf l := by
  induction l with
  | nil => rfl
  | cons kv t ih =>
    simp only [setStatusFor, List.map_cons] at ih ⊢
    simp only [keysOf] at ih
    by_cases hk : kv.1.1 = cid2
    . rw [if_pos hk]
      simp only [keysOf, List.map_cons, ih]
    . rw [if_neg hk]
      simp only [keysOf, List.map_cons, ih]

theorem alGet_setStatusFor (l : List ((Str × Str) × RegItem)) (cid2 : Str)
    (st : RegStatus) (k : Str × Str) :
    alGet (setStatusFor l cid2 st) k =
      (alGet l k).map (fun r => if k.1 = cid2 then { r with status := st } else r) := by
  induction l with
  | nil => simp [setStatusFor, alGet]
  | cons kv t ih =>
    simp only [setStatusFor, List.map_cons] at ih ⊢
    by_cases hk : kv.1.1 = cid2
    . rw [if_pos hk]
      by_cases hkv : kv.1 = k
      . have hk2 : k.1 = cid2 := by rw [← hkv]; exact hk
        simp [alGet, hkv, hk2]
      . simp only [alGet, if_neg hkv, ih]
    . rw [if_neg hk]
      by_cases hkv : kv.1 = k
      . have hk2 : ¬ (k.1 = cid2) := by rw [← hkv]; exact hk
        simp [alGet, hkv, hk2]
      . simp only [alGet, if_neg hkv, ih]

/-! ### String lemmas for identifier derivation -/

theorem splitDash_ne_nil (l : Str) : splitDash l ≠ [] := by
  cases l with
  | nil => simp [splitDash]
  | cons c cs =>
    simp only [splitDash]
    cases hs : splitDash cs with
    | nil => simp
    | cons p ps =>
      by_cases hc : c = '-'
      . simp [hc]
      . simp [hc]

theorem joinDash_splitDash (l : Str) : joinDash (splitDash l) = l := by
  induction l with
  | nil => rfl
  | cons c cs ih =>
    cases hs : splitDash cs with
    | nil => exact absurd hs (splitDash_ne_nil cs)
    | cons p ps =>
      rw [hs] at ih
      by_cases hc : c = '-'
      . subst hc
        simp only [splitDash, hs, if_pos rfl, joinDash]
        rw [ih]
        rfl
      . simp only [splitDash, hs, if_neg hc]
        cases ps with
        | nil =>
          simp only [joinDash] at ih ⊢
          rw [ih]
        | cons q ps2 =>
          rw [show joinDash ((c :: p) :: q :: ps2) =
                (c :: p) ++ ('-' :: joinDash (q :: ps2)) from rfl]
          rw [List.cons_append]
          rw [show p ++ ('-' :: joinDash (q :: ps2)) = joinDash (p :: q :: ps2) from rfl]
          rw [ih]

theorem splitDash_append (a b : Str) (h : ∀ c ∈ a, c ≠ '-') :
    splitDash (a ++ ('-' :: b)) = a :: splitDash b := by
  induction a with
  | nil =>
    simp only [List.nil_append, splitDash]
    cases hs : splitDash b with
    | nil => exact absurd hs (splitDash_ne_nil b)
    | cons p ps => simp
  | cons c a2 ih =>
    have hc : c ≠ '-' := h c (List.mem_cons_self c a2)
    have h2 : ∀ x ∈ a2, x ≠ '-' := fun x hx => h x (List.mem_cons_of_mem c hx)
    simp only [List.cons_append, splitDash, List.append_eq]
    rw [ih h2]
    simp [hc]

theorem charOfNat_toNat (n : Nat) (h : n.isValidChar) : (Char.ofNat n).toNat = n := by
  simp [Char.ofNat, h, Char.toNat, Char.ofNatAux]
  rfl

theorem charToUpper_ne_dash (c : Char) (hc : c ≠ '-') : c.toUpper ≠ '-' := by
  intro h
  simp only [Char.toUpper] at h
  by_cases hr : c.toNat ≥ 97 ∧ c.toNat ≤ 122
  . rw [if_pos hr] at h
    have hv : (c.toNat - 32).isValidChar := by
      left
      omega
    have h4 := congrArg Char.toNat h
    rw [charOfNat_toNat _ hv] at h4
    have h3 : ('-' : Char).toNat = 45 := by decide
    omega
  . rw [if_neg hr] at h
    exact hc h

theorem upper_no_dash (n : Str) (h : ('-' : Char) ∉ n) : ∀ c ∈ upper n, c ≠ '-' := by
  intro c hc
  simp only [upper, List.mem_map] at hc
  obtain ⟨d, hd, hdc⟩ := hc
  subst hdc
  exact charToUpper_ne_dash d (fun he => h (he ▸ hd))

/-! ### Inversion lemmas: what a successful call tells about its inputs and
its output store -/

/-- The by-course row written by a successful registration. -/
def newRegItem (rid n e c ts : Str) : RegItem :=
  { registration_id := rid, employee_name := n, email := e, course_id := c,
    status := .ACCEPTED, created_at := ts }

/-- The by-employee row written by a successful registration. -/
def newEmpItem (rid n c : Str) : EmpItem :=
  { registration_id := rid, employee_name := n, course_id := c, status := .ACCEPTED }

theorem register_ok_inv {course_id employee_name email created_at : Str}
    {s : Store} {rid : Str} {s1 : Store}
    (h : registerForCourse course_id employee_name email created_at s = (.ok rid, s1)) :
    ∃ course, getCourse s course_id = some course ∧
      course.is_allotted = false ∧
      course.course_status ≠ some .COURSE_CANCELED ∧
      getEmp s (upper (trimStr email)) course_id = none ∧
      course.current_count < course.max_employees ∧
      isValidCourseIdFormat course_id = true ∧
      rid = generateRegistrationId (trimStr employee_name) course_id ∧
      s1 = { courses := alPut s.courses course_id
               { course with current_count := course.current_count + 1 }
             regs := alPut s.regs (course_id, rid)
               (newRegItem rid (trimStr employee_name) (trimStr email) course_id created_at)
             emps := alPut s.emps (upper (trimStr email), course_id)
               (newEmpItem rid (trimStr employee_name) course_id) } := by
  unfold registerForCourse at h
  split at h
  . simp at h
  split at h
  . simp at h
  split at h
  . simp at h
  split at h
  . simp at h
  split at h
  . simp at h
  next course hcourse =>
    split at h
    . simp at h
    split at h
    . simp at h
    split at h
    . simp at h
    split at h
    . simp at h
    rw [Prod.mk.injEq] at h
    obtain ⟨h1, h2⟩ := h
    rw [RegisterRes.ok.injEq] at h1
    rename_i hncanc hnallot hnemp hnfull
    refine ⟨course, hcourse, ?_, hncanc, ?_, ?_, ?_, h1.symm, ?_⟩
    . simpa using hnallot
    . simpa [Option.not_isSome_iff_eq_none] using hnemp
    . omega
    . rename_i hfmt hother
      simpa using hfmt
    . rw [← h2, ← h1]
      rfl

/-- The decision rule of allotCourse: CONFIRMED exactly when the queried
registration count reaches min_employees. -/
def allotFinalStatus (course : CourseItem) (regCount : Nat) : RegStatus :=
  if course.min_employees ≤ (regCount : Int) then .CONFIRMED else .COURSE_CANCELED

/-- The response entry allotCourse builds for one queried registration row. -/
def allotEntryOf (courseName cid : Str) (fs : RegStatus) (r : RegItem) : AllotEntry :=
  { registration_id := r.registration_id, email := r.email, course_name := courseName,
    course_id := cid, status := fs }

/-- A course row as rewritten by the allotment transaction. -/
def allottedCourseItem (course : CourseItem) (st : RegStatus) : CourseItem :=
  { course with is_allotted := true, course_status := some st }

theorem allot_ok_inv {course_id : Str} {today : Date3} {s : Store}
    {l : List AllotEntry} {s1 : Store}
    (h : allotCourse course_id today s = (.ok l, s1)) :
    ∃ course, getCourse s course_id = some course ∧
      course.is_allotted = false ∧
      startedBefore course.start_date today = false ∧
      isValidCourseIdFormat course_id = true ∧
      l = sortByRegistrationId ((rowsFor s.regs course_id).map
            (allotEntryOf course.course_name course_id
              (allotFinalStatus course (rowsFor s.regs course_id).length))) ∧
      ((0 < (rowsFor s.regs course_id).length ∧
        s1 = { s with
          regs := (setStatusFor s.regs course_id
                    (allotFinalStatus course (rowsFor s.regs course_id).length)),
          courses := (alPut s.courses course_id
            (allottedCourseItem course
              (allotFinalStatus course (rowsFor s.regs course_id).length))) }) ∨
       ((rowsFor s.regs course_id).length = 0 ∧
        s1 = { s with courses := (alPut s.courses course_id
            (allottedCourseItem course .COURSE_CANCELED)) })) := by
  unfold allotCourse at h
  split at h
  . simp at h
  split at h
  . simp at h
  rename_i hfmt
  split at h
  . simp at h
  next course hcourse =>
    split at h
    . simp at h
    rename_i hdate
    split at h
    . simp at h
    rename_i hallot
    simp only [] at h
    by_cases hlen : 0 < (rowsFor s.regs course_id).length
    . rw [if_pos hlen] at h
      rw [Prod.mk.injEq] at h
      obtain ⟨h1, h2⟩ := h
      rw [AllotRes.ok.injEq] at h1
      refine ⟨course, hcourse, by simpa using hallot, by simpa using hdate,
        by simpa using hfmt, ?_, Or.inl ⟨hlen, ?_⟩⟩
      . rw [← h1]
        rfl
      . rw [← h2]
        rfl
    . rw [if_neg hlen] at h
      rw [Prod.mk.injEq] at h
      obtain ⟨h1, h2⟩ := h
      rw [AllotRes.ok.injEq] at h1
      refine ⟨course, hcourse, by simpa using hallot, by simpa using hdate,
        by simpa using hfmt, ?_, Or.inr ⟨by omega, ?_⟩⟩
      . rw [← h1]
        rfl
      . rw [← h2]
        rfl

theorem cancel_acc_inv {registration_id rid2 cid2 : Str} {s s1 : Store}
    (h : cancelRegistration registration_id s = (.accepted rid2 cid2, s1)) :
    rid2 = registration_id ∧
    cid2 = extractCourseIdFromRegistration registration_id ∧
    isValidRegistrationIdFormat registration_id = true ∧
    ∃ r course,
      getReg s (extractCourseIdFromRegistration registration_id) registration_id = some r ∧
      getCourse s (extractCourseIdFromRegistration registration_id) = some course ∧
      course.is_allotted = false ∧
      s1 = { courses := alPut s.courses (extractCourseIdFromRegistration registration_id)
               { course with current_count := course.current_count - 1 }
             regs := alDel s.regs
               (extractCourseIdFromRegistration registration_id, registration_id)
             emps := alDel s.emps
               (upper r.email, extractCourseIdFromRegistration registration_id) } := by
  unfold cancelRegistration at h
  split at h
  . simp at h
  split at h
  . simp at h
  next hfmt =>
    simp only [] at h
    split at h
    . simp at h
    next r hr =>
      split at h
      . simp at h
      next course hcourse =>
        split at h
        . simp at h
        next hallot =>
          rw [Prod.mk.injEq] at h
          obtain ⟨h1, h2⟩ := h
          rw [CancelRes.accepted.injEq] at h1
          refine ⟨h1.1.symm, h1.2.symm, by simpa using hfmt, r, course, hr, hcourse,
            by simpa using hallot, h2.symm⟩

theorem create_ok_inv {course_name instructor_name start_date : Str}
    {mn mx : Int} {today : Date3} {s : Store} {cid : Str} {s1 : Store}
    (h : addCourseOffering course_name instructor_name start_date mn mx today s =
           (.ok cid, s1)) :
    cid = generateCourseId (trimStr course_name) (trimStr instructor_name) ∧
    getCourse s cid = none ∧
    0 ≤ mn ∧ mn ≤ mx ∧
    s1 = { s with courses := (alPut s.courses cid
      { course_id := cid
        course_name := trimStr course_name
        instructor_name := trimStr instructor_name
        start_date := trimStr start_date
        min_employees := mn
        max_employees := mx
        current_count := 0
        is_allotted := false
        course_status := none }) } := by
  unfold addCourseOffering at h
  split at h
  . simp at h
  split at h
  . simp at h
  split at h
  . simp at h
  next hneg =>
    split at h
    . simp at h
    next hminmax =>
      split at h
      . simp at h
      split at h
      . simp at h
      next sd hsd =>
        split at h
        . simp at h
        simp only [] at h
        split at h
        . simp at h
        next hdup =>
          rw [Prod.mk.injEq] at h
          obtain ⟨h1, h2⟩ := h
          rw [CreateRes.ok.injEq] at h1
          subst h1
          have h3 := not_or.mp hneg
          refine ⟨rfl, hdup, by omega, by omega, h2.symm⟩

/-- A course row as rewritten by the ADD current_count +1 item of the
registration transaction. -/
def incCourseItem (course : CourseItem) : CourseItem :=
  { course with current_count := course.current_count + 1 }

/-- A course row as rewritten by the ADD current_count -1 item of the
cancellation transaction. -/
def decCourseItem (course : CourseItem) : CourseItem :=
  { course with current_count := course.current_count - 1 }

/-! ### Effect shape of every branch of every operation -/

theorem create_cases (n i d : Str) (mn mx : Int) (t : Date3) (s : Store) :
    (addCourseOffering n i d mn mx t s).2 = s ∨
    ∃ cid c0, getCourse s cid = none ∧ c0.current_count = 0 ∧
      (addCourseOffering n i d mn mx t s).2 =
        { s with courses := alPut s.courses cid c0 } := by
  unfold addCourseOffering
  split
  . exact Or.inl rfl
  split
  . exact Or.inl rfl
  split
  . exact Or.inl rfl
  split
  . exact Or.inl rfl
  split
  . exact Or.inl rfl
  split
  . exact Or.inl rfl
  next sd hsd =>
    split
    . exact Or.inl rfl
    simp only []
    split
    . exact Or.inl rfl
    next hdup =>
      right
      exact ⟨generateCourseId (trimStr n) (trimStr i),
        { course_id := generateCourseId (trimStr n) (trimStr i)
          course_name := trimStr n
          instructor_name := trimStr i
          start_date := trimStr d
          min_employees := mn
          max_employees := mx
          current_count := 0
          is_allotted := false
          course_status := none },
        hdup, rfl, rfl⟩

theorem register_frame {c n e ts : Str} {s : Store} {res : RegisterRes} {s1 : Store}
    (h : registerForCourse c n e ts s = (res, s1))
    (hres : ∀ rid, res ≠ .ok rid) : s1 = s := by
  unfold registerForCourse at h
  split at h
  . injection h with h1 h2
    exact h2.symm
  split at h
  . injection h with h1 h2
    exact h2.symm
  split at h
  . injection h with h1 h2
    exact h2.symm
  split at h
  . injection h with h1 h2
    exact h2.symm
  split at h
  . injection h with h1 h2
    exact h2.symm
  next course hcourse =>
    split at h
    . injection h with h1 h2
      exact h2.symm
    split at h
    . injection h with h1 h2
      exact h2.symm
    split at h
    . injection h with h1 h2
      exact h2.symm
    split at h
    . injection h with h1 h2
      exact h2.symm
    simp only [] at h
    injection h with h1 h2
    exact absurd h1.symm (hres _)

theorem register_cases (c n e ts : Str) (s : Store) :
    (registerForCourse c n e ts s).2 = s ∨
    ∃ rid em course R E, getCourse s c = some course ∧
      (registerForCourse c n e ts s).2 =
        { courses := alPut s.courses c (incCourseItem course)
          regs := alPut s.regs (c, rid) R
          emps := alPut s.emps (em, c) E } := by
  rcases hres : registerForCourse c n e ts s with ⟨res, s1⟩
  by_cases hok : ∃ rid, res = .ok rid
  . obtain ⟨rid, hrid⟩ := hok
    subst hrid
    obtain ⟨course, hcourse, ha, hc, he, hf, hv, hrid2, hs1⟩ := register_ok_inv hres
    right
    refine ⟨rid, upper (trimStr e), course,
      newRegItem rid (trimStr n) (trimStr e) c ts,
      newEmpItem rid (trimStr n) c, hcourse, ?_⟩
    exact hs1
  . left
    refine register_frame hres ?_
    intro rid hr
    exact hok ⟨rid, hr⟩

theorem allot_cases (c : Str) (t : Date3) (s : Store) :
    (allotCourse c t s).2 = s ∨
    ∃ course st, getCourse s c = some course ∧
      ((allotCourse c t s).2 =
        { s with regs := setStatusFor s.regs c st,
                 courses := alPut s.courses c (allottedCourseItem course st) } ∨
       (allotCourse c t s).2 =
        { s with courses := alPut s.courses c (allottedCourseItem course st) }) := by
  unfold allotCourse
  split
  . exact Or.inl rfl
  split
  . exact Or.inl rfl
  split
  . exact Or.inl rfl
  next course hcourse =>
    split
    . exact Or.inl rfl
    split
    . exact Or.inl rfl
    simp only []
    split
    . right
      exact ⟨course, _, hcourse, Or.inl rfl⟩
    . right
      exact ⟨course, .COURSE_CANCELED, hcourse, Or.inr rfl⟩

theorem cancel_cases (rid0 : Str) (s : Store) :
    (cancelRegistration rid0 s).2 = s ∨
    ∃ r course, getReg s (extractCourseIdFromRegistration rid0) rid0 = some r ∧
      getCourse s (extractCourseIdFromRegistration rid0) = some course ∧
      (cancelRegistration rid0 s).2 =
        { courses := alPut s.courses (extractCourseIdFromRegistration rid0)
            (decCourseItem course)
          regs := alDel s.regs (extractCourseIdFromRegistration rid0, rid0)
          emps := alDel s.emps (upper r.email, extractCourseIdFromRegistration rid0) } := by
  unfold cancelRegistration
  split
  . exact Or.inl rfl
  split
  . exact Or.inl rfl
  simp only []
  split
  . exact Or.inl rfl
  next r hr =>
    split
    . exact Or.inl rfl
    next course hcourse =>
      split
      . exact Or.inl rfl
      right
      exact ⟨r, course, hr, hcourse, rfl⟩

/-! ### The reachable-store invariant -/

theorem getCourse_mk (X : List (Str × CourseItem)) (R : List ((Str × Str) × RegItem))
    (E : List ((Str × Str) × EmpItem)) (cid : Str) :
    getCourse ⟨X, R, E⟩ cid = alGet X cid := rfl

/-- Structural invariant of every reachable store: registration-by-course keys
are duplicate-free, every registration-by-course row lies under an existing
course, and no course counter is below the number of registration rows in its
partition. -/
def StoreInv (s : Store) : Prop :=
  (keysOf s.regs).Nodup ∧
  (∀ cid, 0 < keyCount s.regs cid → (getCourse s cid).isSome) ∧
  (∀ cid c, getCourse s cid = some c → (keyCount s.regs cid : Int) ≤ c.current_count)

theorem storeInv_mk (X : List (Str × CourseItem)) (R : List ((Str × Str) × RegItem))
    (E : List ((Str × Str) × EmpItem))
    (h1 : (keysOf R).Nodup)
    (h2 : ∀ cid, 0 < keyCount R cid → (alGet X cid).isSome)
    (h3 : ∀ cid c, alGet X cid = some c → (keyCount R cid : Int) ≤ c.current_count) :
    StoreInv ⟨X, R, E⟩ := ⟨h1, h2, h3⟩

theorem storeInv_empty : StoreInv emptyStore := by
  refine ⟨List.nodup_nil, fun cid h => ?_, fun cid c hc => ?_⟩
  . simp [keyCount, emptyStore] at h
  . simp [getCourse, alGet, emptyStore] at hc

theorem keyCount_alPut_other (l : List ((Str × Str) × α)) (k : Str × Str) (v : α)
    (cid : Str) (h : k.1 ≠ cid) : keyCount (alPut l k v) cid = keyCount l cid := by
  cases hg : alGet l k with
  | none =>
    rw [keyCount_alPut_none l k v cid hg]
    simp [h]
  | some w => exact keyCount_alPut_some l k v w cid hg

theorem keyCount_alPut_le (l : List ((Str × Str) × α)) (k : Str × Str) (v : α)
    (cid : Str) : keyCount (alPut l k v) cid ≤ keyCount l cid + 1 := by
  cases hg : alGet l k with
  | none =>
    rw [keyCount_alPut_none l k v cid hg]
    by_cases h : k.1 = cid
    . simp [h]
    . simp [h]
  | some w =>
    rw [keyCount_alPut_some l k v w cid hg]
    omega

theorem storeInv_step (s : Store) (op : Op) (hInv : StoreInv s) :
    StoreInv (applyOp s op) := by
  obtain ⟨hnd, hrc, hcount⟩ := hInv
  cases op with
  | create n i d mn mx t =>
    rcases create_cases n i d mn mx t s with hsame | ⟨cid, c0, hnone, hc0, heq⟩
    . simp only [applyOp]
      rw [hsame]
      exact ⟨hnd, hrc, hcount⟩
    . simp only [applyOp]
      rw [heq]
      refine storeInv_mk _ _ _ hnd ?_ ?_
      . intro cid2 hpos
        exact alGet_isSome_alPut s.courses cid cid2 c0 (hrc cid2 hpos)
      . intro cid2 c hc
        by_cases hcc : cid2 = cid
        . subst hcc
          rw [alGet_alPut_self] at hc
          have hz : ¬ 0 < keyCount s.regs cid2 := by
            intro hp
            have := hrc cid2 hp
            rw [hnone] at this
            simp at this
          have hz2 : keyCount s.regs cid2 = 0 := by omega
          rw [hz2]
          injection hc with hc
          rw [← hc, hc0]
          simp
        . rw [alGet_alPut_ne s.courses cid cid2 c0 hcc] at hc
          exact hcount cid2 c hc
  | register c n e ts =>
    rcases register_cases c n e ts s with hsame | ⟨rid, em, course, R, E, hcourse, heq⟩
    . simp only [applyOp]
      rw [hsame]
      exact ⟨hnd, hrc, hcount⟩
    . simp only [applyOp]
      rw [heq]
      refine storeInv_mk _ _ _ (nodup_keysOf_alPut s.regs (c, rid) R hnd) ?_ ?_
      . intro cid2 hpos
        by_cases hcc : cid2 = c
        . subst hcc
          rw [alGet_alPut_self]
          rfl
        . have hkc : keyCount (alPut s.regs (c, rid) R) cid2 = keyCount s.regs cid2 :=
            keyCount_alPut_other s.regs (c, rid) R cid2 (fun hx => hcc hx.symm)
          rw [hkc] at hpos
          exact alGet_isSome_alPut s.courses c cid2 (incCourseItem course) (hrc cid2 hpos)
      . intro cid2 cc hcc2
        by_cases hcc : cid2 = c
        . subst hcc
          rw [alGet_alPut_self] at hcc2
          injection hcc2 with hcc2
          have hbound := keyCount_alPut_le s.regs (cid2, rid) R cid2
          have hold := hcount cid2 course hcourse
          rw [← hcc2]
          show (keyCount (alPut s.regs (cid2, rid) R) cid2 : Int) ≤
            course.current_count + 1
          have hcast : (keyCount (alPut s.regs (cid2, rid) R) cid2 : Int) ≤
              (keyCount s.regs cid2 : Int) + 1 := by
            exact_mod_cast hbound
          omega
        . rw [alGet_alPut_ne s.courses c cid2 (incCourseItem course) hcc] at hcc2
          rw [keyCount_alPut_other s.regs (c, rid) R cid2 (fun hx => hcc hx.symm)]
          exact hcount cid2 cc hcc2
  | allot c t =>
    rcases allot_cases c t s with hsame | ⟨course, st, hcourse, heq | heq⟩
    . simp only [applyOp]
      rw [hsame]
      exact ⟨hnd, hrc, hcount⟩
    . simp only [applyOp]
      rw [heq]
      refine storeInv_mk _ _ _ ?_ ?_ ?_
      . rw [keysOf_setStatusFor]
        exact hnd
      . intro cid2 hpos
        rw [keyCount_setStatusFor] at hpos
        exact alGet_isSome_alPut s.courses c cid2 (allottedCourseItem course st)
          (hrc cid2 hpos)
      . intro cid2 cc hcc2
        rw [keyCount_setStatusFor]
        by_cases hcc : cid2 = c
        . subst hcc
          rw [alGet_alPut_self] at hcc2
          injection hcc2 with hcc2
          rw [← hcc2]
          exact hcount cid2 course hcourse
        . rw [alGet_alPut_ne s.courses c cid2 (allottedCourseItem course st) hcc] at hcc2
          exact hcount cid2 cc hcc2
    . simp only [applyOp]
      rw [heq]
      refine storeInv_mk _ _ _ hnd ?_ ?_
      . intro cid2 hpos
        exact alGet_isSome_alPut s.courses c cid2 (allottedCourseItem course st)
          (hrc cid2 hpos)
      . intro cid2 cc hcc2
        by_cases hcc : cid2 = c
        . subst hcc
          rw [alGet_alPut_self] at hcc2
          injection hcc2 with hcc2
          rw [← hcc2]
          exact hcount cid2 course hcourse
        . rw [alGet_alPut_ne s.courses c cid2 (allottedCourseItem course st) hcc] at hcc2
          exact hcount cid2 cc hcc2
  | cancel rid0 =>
    rcases cancel_cases rid0 s with hsame | ⟨r, course, hr, hcourse, heq⟩
    . simp only [applyOp]
      rw [hsame]
      exact ⟨hnd, hrc, hcount⟩
    . simp only [applyOp]
      rw [heq]
      refine storeInv_mk _ _ _ (nodup_keysOf_alDel s.regs _ hnd) ?_ ?_
      . intro cid2 hpos
        have := keyCount_alDel_le s.regs (extractCourseIdFromRegistration rid0, rid0) cid2
        have hpos2 : 0 < keyCount s.regs cid2 := by omega
        exact alGet_isSome_alPut s.courses _ cid2 (decCourseItem course) (hrc cid2 hpos2)
      . intro cid2 cc hcc2
        by_cases hcc : cid2 = extractCourseIdFromRegistration rid0
        . subst hcc
          rw [alGet_alPut_self] at hcc2
          injection hcc2 with hcc2
          have hdel := keyCount_alDel_nodup s.regs
            (extractCourseIdFromRegistration rid0, rid0) r
            (extractCourseIdFromRegistration rid0) hnd hr rfl
          have hold := hcount (extractCourseIdFromRegistration rid0) course hcourse
          rw [← hcc2]
          show (keyCount (alDel s.regs (extractCourseIdFromRegistration rid0, rid0))
              (extractCourseIdFromRegistration rid0) : Int) ≤ course.current_count - 1
          have hcast : ((keyCount (alDel s.regs (extractCourseIdFromRegistration rid0, rid0))
              (extractCourseIdFromRegistration rid0) : Int) + 1 =
              (keyCount s.regs (extractCourseIdFromRegistration rid0) : Int)) := by
            exact_mod_cast hdel
          omega
        . rw [alGet_alPut_ne s.courses _ cid2 (decCourseItem course) hcc] at hcc2
          rw [keyCount_alDel_ne s.regs (extractCourseIdFromRegistration rid0, rid0) cid2
            (fun hx => hcc hx.symm)]
          exact hcount cid2 cc hcc2

theorem reach_storeInv (s : Store) (h : Reach s) : StoreInv s := by
  induction h with
  | init => exact storeInv_empty
  | step s0 op h0 ih => exact storeInv_step s0 op ih

/-- No operation ever turns is_allotted back off: once a course row carries
is_allotted = true, it still does after any further operation. -/
theorem allotted_mono (s : Store) (op : Op) (cid : Str) (course : CourseItem)
    (hc : getCourse s cid = some course) (ha : course.is_allotted = true) :
    ∃ c2, getCourse (applyOp s op) cid = some c2 ∧ c2.is_allotted = true := by
  cases op with
  | create n i d mn mx t =>
    rcases create_cases n i d mn mx t s with hsame | ⟨cid2, c0, hnone, hc0, heq⟩
    . simp only [applyOp]
      rw [hsame]
      exact ⟨course, hc, ha⟩
    . simp only [applyOp]
      rw [heq]
      by_cases he : cid = cid2
      . subst he
        rw [hc] at hnone
        exact absurd hnone (by simp)
      . rw [getCourse_mk, alGet_alPut_ne s.courses cid2 cid c0 he]
        exact ⟨course, hc, ha⟩
  | register c n e ts =>
    rcases register_cases c n e ts s with hsame | ⟨rid, em, course2, R, E, hcourse2, heq⟩
    . simp only [applyOp]
      rw [hsame]
      exact ⟨course, hc, ha⟩
    . simp only [applyOp]
      rw [heq]
      by_cases he : cid = c
      . subst he
        rw [hc] at hcourse2
        injection hcourse2 with hcourse2
        rw [getCourse_mk, alGet_alPut_self]
        refine ⟨incCourseItem course2, rfl, ?_⟩
        show course2.is_allotted = true
        rw [← hcourse2]
        exact ha
      . rw [getCourse_mk, alGet_alPut_ne s.courses c cid (incCourseItem course2) he]
        exact ⟨course, hc, ha⟩
  | allot c t =>
    rcases allot_cases c t s with hsame | ⟨course2, st, hcourse2, heq | heq⟩
    . simp only [applyOp]
      rw [hsame]
      exact ⟨course, hc, ha⟩
    . simp only [applyOp]
      rw [heq]
      by_cases he : cid = c
      . subst he
        rw [getCourse_mk, alGet_alPut_self]
        exact ⟨allottedCourseItem course2 st, rfl, rfl⟩
      . rw [getCourse_mk, alGet_alPut_ne s.courses c cid (allottedCourseItem course2 st) he]
        exact ⟨course, hc, ha⟩
    . simp only [applyOp]
      rw [heq]
      by_cases he : cid = c
      . subst he
        rw [getCourse_mk, alGet_alPut_self]
        exact ⟨allottedCourseItem course2 st, rfl, rfl⟩
      . rw [getCourse_mk, alGet_alPut_ne s.courses c cid (allottedCourseItem course2 st) he]
        exact ⟨course, hc, ha⟩
  | cancel rid0 =>
    rcases cancel_cases rid0 s with hsame | ⟨r, course2, hr, hcourse2, heq⟩
    . simp only [applyOp]
      rw [hsame]
      exact ⟨course, hc, ha⟩
    . simp only [applyOp]
      rw [heq]
      by_cases he : cid = extractCourseIdFromRegistration rid0
      . subst he
        rw [hc] at hcourse2
        injection hcourse2 with hcourse2
        rw [getCourse_mk, alGet_alPut_self]
        refine ⟨decCourseItem course2, rfl, ?_⟩
        show course2.is_allotted = true
        rw [← hcourse2]
        exact ha
      . rw [getCourse_mk, alGet_alPut_ne s.courses _ cid (decCourseItem course2) he]
        exact ⟨course, hc, ha⟩

/-! ### Path lemmas: the exact result of a call whose guards are known -/

theorem fmt_ne_nil {c : Str} (h : isValidCourseIdFormat c = true) : ¬ (c = []) := by
  intro hc
  rw [hc] at h
  exact absurd h (by decide)

theorem regfmt_ne_nil {rid : Str} (h : isValidRegistrationIdFormat rid = true) :
    ¬ (rid = []) := by
  intro hc
  rw [hc] at h
  exact absurd h (by decide)

theorem cancel_exec_rejected (rid : Str) (s : Store) (r : RegItem) (course : CourseItem)
    (hfmt : isValidRegistrationIdFormat rid = true)
    (hr : getReg s (extractCourseIdFromRegistration rid) rid = some r)
    (hc : getCourse s (extractCourseIdFromRegistration rid) = some course)
    (hallot : course.is_allotted = true) :
    cancelRegistration rid s =
      (.rejected rid (extractCourseIdFromRegistration rid), s) := by
  unfold cancelRegistration
  rw [if_neg (regfmt_ne_nil hfmt), if_neg (by rw [hfmt]; simp)]
  simp only []
  rw [hr]
  simp only []
  rw [hc]
  simp only []
  rw [if_pos hallot]

theorem cancel_exec_accepted (rid : Str) (s : Store) (r : RegItem) (course : CourseItem)
    (hfmt : isValidRegistrationIdFormat rid = true)
    (hr : getReg s (extractCourseIdFromRegistration rid) rid = some r)
    (hc : getCourse s (extractCourseIdFromRegistration rid) = some course)
    (hallot : course.is_allotted = false) :
    cancelRegistration rid s =
      (.accepted rid (extractCourseIdFromRegistration rid),
       { courses := alPut s.courses (extractCourseIdFromRegistration rid)
           (decCourseItem course)
         regs := alDel s.regs (extractCourseIdFromRegistration rid, rid)
         emps := alDel s.emps (upper r.email, extractCourseIdFromRegistration rid) }) := by
  unfold cancelRegistration
  rw [if_neg (regfmt_ne_nil hfmt), if_neg (by rw [hfmt]; simp)]
  simp only []
  rw [hr]
  simp only []
  rw [hc]
  simp only []
  rw [if_neg (by rw [hallot]; simp)]
  rfl

theorem register_exec (c n e ts : Str) (s : Store) (course : CourseItem)
    (hne : ¬ (n = [] ∨ e = [] ∨ c = []))
    (hte : ¬ (trimStr n = [] ∨ trimStr e = []))
    (hem : isValidEmail (trimStr e) = true)
    (hfm : isValidCourseIdFormat c = true)
    (hc : getCourse s c = some course)
    (hcanc : course.course_status ≠ some .COURSE_CANCELED)
    (hallot : course.is_allotted = false)
    (hdup : getEmp s (upper (trimStr e)) c = none)
    (hfull : course.current_count < course.max_employees) :
    registerForCourse c n e ts s =
      (.ok (generateRegistrationId (trimStr n) c),
       { courses := alPut s.courses c (incCourseItem course)
         regs := alPut s.regs (c, generateRegistrationId (trimStr n) c)
           (newRegItem (generateRegistrationId (trimStr n) c) (trimStr n) (trimStr e) c ts)
         emps := alPut s.emps (upper (trimStr e), c)
           (newEmpItem (generateRegistrationId (trimStr n) c) (trimStr n) c) }) := by
  unfold registerForCourse
  rw [if_neg hne, if_neg hte, if_neg (by rw [hem]; simp), if_neg (by rw [hfm]; simp)]
  rw [hc]
  simp only []
  rw [if_neg hcanc, if_neg (by rw [hallot]; simp)]
  rw [if_neg (by rw [hdup]; simp)]
  rw [if_neg (by omega)]
  rfl

theorem register_exec_dup (c n e ts : Str) (s : Store) (course : CourseItem)
    (hne : ¬ (n = [] ∨ e = [] ∨ c = []))
    (hte : ¬ (trimStr n = [] ∨ trimStr e = []))
    (hem : isValidEmail (trimStr e) = true)
    (hfm : isValidCourseIdFormat c = true)
    (hc : getCourse s c = some course)
    (hcanc : course.course_status ≠ some .COURSE_CANCELED)
    (hallot : course.is_allotted = false)
    (hdup : (getEmp s (upper (trimStr e)) c).isSome = true) :
    registerForCourse c n e ts s = (.duplicateErr, s) := by
  unfold registerForCourse
  rw [if_neg hne, if_neg hte, if_neg (by rw [hem]; simp), if_neg (by rw [hfm]; simp)]
  rw [hc]
  simp only []
  rw [if_neg hcanc, if_neg (by rw [hallot]; simp)]
  rw [if_pos hdup]

theorem allot_exec_date (c : Str) (t : Date3) (s : Store) (course : CourseItem)
    (hfm : isValidCourseIdFormat c = true)
    (hc : getCourse s c = some course)
    (hdate : startedBefore course.start_date t = true) :
    allotCourse c t s = (.dateErr, s) := by
  unfold allotCourse
  rw [if_neg (fmt_ne_nil hfm), if_neg (by rw [hfm]; simp)]
  rw [hc]
  simp only []
  rw [if_pos hdate]

theorem allot_exec_allotted (c : Str) (t : Date3) (s : Store) (course : CourseItem)
    (hfm : isValidCourseIdFormat c = true)
    (hc : getCourse s c = some course)
    (hdate : startedBefore course.start_date t = false)
    (hallot : course.is_allotted = true) :
    allotCourse c t s = (.allottedErr, s) := by
  unfold allotCourse
  rw [if_neg (fmt_ne_nil hfm), if_neg (by rw [hfm]; simp)]
  rw [hc]
  simp only []
  rw [if_neg (by rw [hdate]; simp), if_pos hallot]

theorem allot_dateErr_inv {c : Str} {t : Date3} {s : Store} {s1 : Store}
    (h : allotCourse c t s = (.dateErr, s1)) :
    ∃ course, getCourse s c = some course ∧
      startedBefore course.start_date t = true := by
  unfold allotCourse at h
  split at h
  . simp at h
  split at h
  . simp at h
  split at h
  . simp at h
  next course hcourse =>
    split at h
    . next hdate => exact ⟨course, hcourse, by simpa using hdate⟩
    split at h
    . simp at h
    simp only [] at h
    split at h
    . simp at h
    . simp at h

/-! ### Concrete scenario stores used by witnesses and counterexamples -/

/-- The wall-clock date used by the example calls (well before the course
start date below). -/
def exToday : Date3 := (2025, 10, 12)

/-- Example start date 01012030 (DDMMYYYY), parsing to (2030, 1, 1). -/
def exStart : Str := str "01012030"

/-- Store after creating the Java course (min 1, max 3). -/
def exS1 : Store :=
  (addCourseOffering (str "Java") (str "James") exStart 1 3 exToday emptyStore).2

/-- The derived Java course id. -/
def exCid : Str := str "OFFERING-JAVA-JAMES"

/-- Store after Andy registers for the Java course. -/
def exS2 : Store :=
  (registerForCourse exCid (str "Andy") (str "andy1@gmail.com") (str "t1") exS1).2

/-- The derived registration id of Andy on the Java course. -/
def exRid : Str := str "ANDY-OFFERING-JAVA-JAMES"

/-- Store after a second ANDY (different email) registers for the Java course,
overwriting the by-course row of the first registration. -/
def exS3 : Store :=
  (registerForCourse exCid (str "ANDY") (str "andy2@gmail.com") (str "t2") exS2).2

/-- Store after the Java course is allotted (one registration, min 1). -/
def exS4 : Store := (allotCourse exCid exToday exS2).2

/-- Store after creating a course with min_employees 0. -/
def exMin0S : Store :=
  (addCourseOffering (str "Go") (str "Ken") exStart 0 2 exToday emptyStore).2

/-- The derived id of the min 0 course. -/
def exCid0 : Str := str "OFFERING-GO-KEN"

/-- Counterexample trace for the register-cancel round trip: two courses whose
derived ids collide through a hyphenated employee name. -/
def c4S1 : Store :=
  (addCourseOffering (str "J") (str "K") exStart 1 3 exToday emptyStore).2

/-- Second course of the round-trip counterexample, named so that its id is a
suffix of a registration id of the first course. -/
def c4S2 : Store :=
  (addCourseOffering (str "OFFERING-J") (str "K") exStart 1 3 exToday c4S1).2

/-- First course id of the round-trip counterexample. -/
def c4CidA : Str := str "OFFERING-J-K"

/-- Second course id of the round-trip counterexample. -/
def c4CidB : Str := str "OFFERING-OFFERING-J-K"

/-- Store after employee A registers for the second course. -/
def c4S3 : Store :=
  (registerForCourse c4CidB (str "A") (str "e2@x.com") (str "t") c4S2).2

/-- The registration id shared by both registrations of the counterexample. -/
def c4Rid : Str := str "A-OFFERING-OFFERING-J-K"

/-- Store after employee A-OFFERING registers for the first course; the
derived registration id equals c4Rid. -/
def c4S4 : Store :=
  (registerForCourse c4CidA (str "A-OFFERING") (str "e1@x.com") (str "t") c4S3).2

/-- Store after cancelling c4Rid, which the code resolves to the second
course. -/
def c4S5 : Store := (cancelRegistration c4Rid c4S4).2

/-! ### C5 -/

/-- C5 counterexample: for the employee name A-B (containing a hyphen),
extracting the course id back from the generated registration id drops the
B segment into the course id, so the round trip does not return the original
course id.  This falsifies the claim as stated, which quantifies over every
employee name. -/
theorem C5_cex :
    extractCourseIdFromRegistration
        (generateRegistrationId (str "A-B") (str "OFFERING-JAVA-JAMES")) =
      str "B-OFFERING-JAVA-JAMES" ∧
    str "B-OFFERING-JAVA-JAMES" ≠ str "OFFERING-JAVA-JAMES" := by
  decide

/-- C5 amended: for every employee name without a hyphen and every course id,
extracting the course id from the derived registration id (by dropping the
first hyphen-delimited segment and rejoining the remainder) returns the
original course id. -/
theorem C5_thm (employeeName courseId : Str) (h : ('-' : Char) ∉ employeeName) :
    extractCourseIdFromRegistration (generateRegistrationId employeeName courseId) =
      courseId := by
  unfold generateRegistrationId extractCourseIdFromRegistration
  rw [splitDash_append (upper employeeName) courseId (upper_no_dash employeeName h)]
  show joinDash (splitDash courseId) = courseId
  exact joinDash_splitDash courseId

/-- C5 witness: the round trip at the concrete name ANDY and the Java course
id. -/
theorem C5_witness :
    extractCourseIdFromRegistration
        (generateRegistrationId (str "ANDY") (str "OFFERING-JAVA-JAMES")) =
      str "OFFERING-JAVA-JAMES" :=
  C5_thm (str "ANDY") (str "OFFERING-JAVA-JAMES") (by decide)

/-! ### C6 -/

/-- C6 counterexample: allot invoked exactly on the start date succeeds (the
code only rejects strictly after the start date), refuting the claim that
allotment on or after the start date fails with a conflict. -/
theorem C6_cex :
    (getCourse exS1 exCid).map CourseItem.is_allotted = some false ∧
    (getCourse exS1 exCid).map CourseItem.start_date = some exStart ∧
    parseDDMMYYYY exStart = some (2030, 1, 1) ∧
    (allotCourse exCid (2030, 1, 1) exS1).1 = .ok [] := by
  decide

/-- C6 amended: for every existing course, allot fails with the date conflict
error and performs no write exactly when it is invoked strictly after the
stored start date; invocation on the start date itself never yields the date
conflict. -/
theorem C6_thm :
    (∀ c t s course, isValidCourseIdFormat c = true →
      getCourse s c = some course →
      startedBefore course.start_date t = true →
      allotCourse c t s = (.dateErr, s)) ∧
    (∀ c t s course, getCourse s c = some course →
      startedBefore course.start_date t = false →
      (allotCourse c t s).1 ≠ .dateErr) := by
  constructor
  . intro c t s course hfm hc hdate
    exact allot_exec_date c t s course hfm hc hdate
  . intro c t s course hc hdate hres
    rcases hpair : allotCourse c t s with ⟨res, s1⟩
    rw [hpair] at hres
    simp at hres
    rw [hres] at hpair
    obtain ⟨course2, hc2, hdate2⟩ := allot_dateErr_inv hpair
    rw [hc] at hc2
    injection hc2 with hc2
    rw [← hc2] at hdate2
    rw [hdate] at hdate2
    exact Bool.false_ne_true hdate2

/-- C6 witness: allot invoked the day after the start date returns the date
conflict and leaves the store unchanged. -/
theorem C6_witness :
    allotCourse exCid (2030, 1, 2) exS1 = (.dateErr, exS1) ∧
    (allotCourse exCid (2030, 1, 1) exS1).1 ≠ .dateErr := by
  constructor
  . exact C6_thm.1 exCid (2030, 1, 2) exS1
      { course_id := exCid, course_name := str "Java", instructor_name := str "James",
        start_date := exStart, min_employees := 1, max_employees := 3,
        current_count := 0, is_allotted := false, course_status := none }
      (by decide) (by decide) (by decide)
  . exact C6_thm.2 exCid (2030, 1, 1) exS1
      { course_id := exCid, course_name := str "Java", instructor_name := str "James",
        start_date := exStart, min_employees := 1, max_employees := 3,
        current_count := 0, is_allotted := false, course_status := none }
      (by decide) (by decide)

/-! ### C7 -/

/-- C7: cancelling any located registration whose owning course is already
allotted returns the non-error CANCEL_REJECTED result and leaves the store
(all rows) exactly unchanged. -/
theorem C7_thm (rid : Str) (s : Store) (r : RegItem) (course : CourseItem)
    (hfmt : isValidRegistrationIdFormat rid = true)
    (hr : getReg s (extractCourseIdFromRegistration rid) rid = some r)
    (hc : getCourse s (extractCourseIdFromRegistration rid) = some course)
    (hallot : course.is_allotted = true) :
    cancelRegistration rid s = (.rejected rid (extractCourseIdFromRegistration rid), s) :=
  cancel_exec_rejected rid s r course hfmt hr hc hallot

/-- C7 witness: cancelling Andy after the Java course has been allotted. -/
theorem C7_witness :
    cancelRegistration exRid exS4 =
      (.rejected exRid (extractCourseIdFromRegistration exRid), exS4) :=
  C7_thm exRid exS4
    { registration_id := exRid, employee_name := str "Andy",
      email := str "andy1@gmail.com", course_id := exCid,
      status := .CONFIRMED, created_at := str "t1" }
    { course_id := exCid, course_name := str "Java", instructor_name := str "James",
      start_date := exStart, min_employees := 1, max_employees := 3,
      current_count := 1, is_allotted := true, course_status := some .CONFIRMED }
    (by decide) (by decide) (by decide) (by decide)

/-! ### C8 -/

/-- C8: on a course already marked allotted, any further allot call fails with
a conflict-class error (the date conflict or the already-allotted conflict)
and mutates no row; and no operation whatsoever ever turns is_allotted back
off on any course row. -/
theorem C8_thm :
    (∀ c t s course, isValidCourseIdFormat c = true →
      getCourse s c = some course → course.is_allotted = true →
      ((allotCourse c t s).1 = .dateErr ∨ (allotCourse c t s).1 = .allottedErr) ∧
      (allotCourse c t s).2 = s) ∧
    (∀ s op cid course, getCourse s cid = some course → course.is_allotted = true →
      ∃ c2, getCourse (applyOp s op) cid = some c2 ∧ c2.is_allotted = true) := by
  constructor
  . intro c t s course hfm hc hallot
    cases hdate : startedBefore course.start_date t with
    | true =>
      rw [allot_exec_date c t s course hfm hc hdate]
      exact ⟨Or.inl rfl, rfl⟩
    | false =>
      rw [allot_exec_allotted c t s course hfm hc hdate hallot]
      exact ⟨Or.inr rfl, rfl⟩
  . intro s op cid course hc hallot
    exact allotted_mono s op cid course hc hallot

/-- C8 witness: a second allot on the already-allotted Java course fails with
the already-allotted conflict and leaves the store unchanged, and a concrete
cancel operation keeps is_allotted true. -/
theorem C8_witness :
    (((allotCourse exCid exToday exS4).1 = .dateErr ∨
      (allotCourse exCid exToday exS4).1 = .allottedErr) ∧
     (allotCourse exCid exToday exS4).2 = exS4) ∧
    (∃ c2, getCourse (applyOp exS4 (.cancel exRid)) exCid = some c2 ∧
      c2.is_allotted = true) := by
  constructor
  . exact C8_thm.1 exCid exToday exS4
      { course_id := exCid, course_name := str "Java", instructor_name := str "James",
        start_date := exStart, min_employees := 1, max_employees := 3,
        current_count := 1, is_allotted := true, course_status := some .CONFIRMED }
      (by decide) (by decide) (by decide)
  . exact C8_thm.2 exS4 (.cancel exRid) exCid
      { course_id := exCid, course_name := str "Java", instructor_name := str "James",
        start_date := exStart, min_employees := 1, max_employees := 3,
        current_count := 1, is_allotted := true, course_status := some .CONFIRMED }
      (by decide) (by decide)

/-! ### C1 -/

/-- C1 counterexample: after allotment of the Java course the by-course copy
of the registration carries CONFIRMED while the by-employee copy still carries
ACCEPTED, so the two copies do not both carry the final status after allot as
the claim states. -/
theorem C1_cex :
    (allotCourse exCid exToday exS2).1 =
      .ok [{ registration_id := exRid, email := str "andy1@gmail.com",
             course_name := str "Java", course_id := exCid, status := .CONFIRMED }] ∧
    (getReg exS4 exCid exRid).map RegItem.status = some .CONFIRMED ∧
    (getEmp exS4 (str "ANDY1@GMAIL.COM") exCid).map EmpItem.status =
      some .ACCEPTED := by
  decide

/-- C1 amended: a successful register creates both denormalized copies with
status ACCEPTED; a successful cancel deletes both copies; a successful allot
rewrites the status only on the by-course copies and leaves every
by-employee row untouched (so the copies agree up to allotment and the
by-employee copy keeps ACCEPTED afterwards). -/
theorem C1_thm :
    (∀ c n e ts s rid s1, registerForCourse c n e ts s = (.ok rid, s1) →
      ∃ R E, getReg s1 c rid = some R ∧ R.status = .ACCEPTED ∧
        getEmp s1 (upper (trimStr e)) c = some E ∧ E.status = .ACCEPTED) ∧
    (∀ rid s r s1 rid2 cid2,
      getReg s (extractCourseIdFromRegistration rid) rid = some r →
      cancelRegistration rid s = (.accepted rid2 cid2, s1) →
      getReg s1 (extractCourseIdFromRegistration rid) rid = none ∧
      getEmp s1 (upper r.email) (extractCourseIdFromRegistration rid) = none) ∧
    (∀ cid today s l s1, allotCourse cid today s = (.ok l, s1) →
      s1.emps = s.emps) := by
  refine ⟨?_, ?_, ?_⟩
  . intro c n e ts s rid s1 h
    obtain ⟨course, hc, ha, hcanc, hemp, hfull, hfmt, hrid, hs1⟩ := register_ok_inv h
    subst hs1
    exact ⟨newRegItem rid (trimStr n) (trimStr e) c ts,
      newEmpItem rid (trimStr n) c,
      alGet_alPut_self .., rfl, alGet_alPut_self .., rfl⟩
  . intro rid s r s1 rid2 cid2 hr h
    obtain ⟨hrid2, hcid2, hfmt, r2, course, hr2, hcourse, hallot, hs1⟩ := cancel_acc_inv h
    rw [hr] at hr2
    injection hr2 with hr2
    subst hs1
    constructor
    . exact alGet_alDel_self ..
    . show alGet (alDel s.emps (upper r2.email, extractCourseIdFromRegistration rid))
        (upper r.email, extractCourseIdFromRegistration rid) = none
      rw [hr2]
      exact alGet_alDel_self ..
  . intro cid today s l s1 h
    obtain ⟨course, hc, ha, hd, hf, hl, hcase⟩ := allot_ok_inv h
    rcases hcase with ⟨hlen, hs1⟩ | ⟨hlen, hs1⟩
    . rw [hs1]
    . rw [hs1]

/-- C1 witness: registering Andy creates both rows with ACCEPTED; cancelling
that registration removes both rows. -/
theorem C1_witness :
    (∃ R E, getReg exS2 exCid exRid = some R ∧ R.status = .ACCEPTED ∧
      getEmp exS2 (upper (trimStr (str "andy1@gmail.com"))) exCid = some E ∧
      E.status = .ACCEPTED) ∧
    (getReg (cancelRegistration exRid exS2).2
        (extractCourseIdFromRegistration exRid) exRid = none ∧
     getEmp (cancelRegistration exRid exS2).2
        (upper (str "andy1@gmail.com")) (extractCourseIdFromRegistration exRid) = none) := by
  constructor
  . exact C1_thm.1 exCid (str "Andy") (str "andy1@gmail.com") (str "t1") exS1 exRid exS2
      (by decide)
  . exact C1_thm.2.1 exRid exS2
      { registration_id := exRid, employee_name := str "Andy",
        email := str "andy1@gmail.com", course_id := exCid,
        status := .ACCEPTED, created_at := str "t1" }
      (cancelRegistration exRid exS2).2 exRid (extractCourseIdFromRegistration exRid)
      (by decide) (by decide)

/-! ### C2 -/

/-- C2 counterexample: a course with min_employees 0 and zero registrations;
allot succeeds, the registration count (0) is at least min_employees (0), yet
the stored course_status is COURSE_CANCELED, not CONFIRMED.  The hardcoded
zero-registration branch contradicts the decision rule claimed for every
registration count. -/
theorem C2_cex :
    (allotCourse exCid0 exToday exMin0S).1 = .ok [] ∧
    keyCount exMin0S.regs exCid0 = 0 ∧
    (getCourse exMin0S exCid0).map CourseItem.min_employees = some 0 ∧
    (getCourse (allotCourse exCid0 exToday exMin0S).2 exCid0).map
        CourseItem.course_status = some (some .COURSE_CANCELED) := by
  decide

/-- C2 amended: a successful allot marks the course allotted; when at least
one registration exists it applies the decision rule (CONFIRMED iff
registrations ≥ min_employees) to the course status and to every by-course
registration row in one atomic write; when zero registrations exist the
course status is always COURSE_CANCELED, even if min_employees = 0. -/
theorem C2_thm (cid : Str) (today : Date3) (s : Store) (l : List AllotEntry)
    (s1 : Store) (course : CourseItem)
    (hok : allotCourse cid today s = (.ok l, s1))
    (hc : getCourse s cid = some course) :
    ∃ c2, getCourse s1 cid = some c2 ∧ c2.is_allotted = true ∧
      (0 < (rowsFor s.regs cid).length →
        c2.course_status =
          some (allotFinalStatus course (rowsFor s.regs cid).length) ∧
        ∀ k r, alGet s1.regs k = some r → k.1 = cid →
          r.status = allotFinalStatus course (rowsFor s.regs cid).length) ∧
      ((rowsFor s.regs cid).length = 0 →
        c2.course_status = some .COURSE_CANCELED) := by
  obtain ⟨course2, hc2, ha, hd, hf, hl, hcase⟩ := allot_ok_inv hok
  rw [hc] at hc2
  injection hc2 with hc2
  subst hc2
  rcases hcase with ⟨hlen, hs1⟩ | ⟨hlen, hs1⟩
  . subst hs1
    refine ⟨allottedCourseItem course (allotFinalStatus course (rowsFor s.regs cid).length),
      alGet_alPut_self .., rfl, ?_, ?_⟩
    . intro hpos
      refine ⟨rfl, ?_⟩
      intro k r hget hk
      rw [alGet_setStatusFor] at hget
      cases hg : alGet s.regs k with
      | none => rw [hg] at hget; simp at hget
      | some r0 =>
        rw [hg] at hget
        simp only [Option.map] at hget
        injection hget with hget
        rw [← hget, if_pos hk]
    . intro hzero
      omega
  . subst hs1
    refine ⟨allottedCourseItem course .COURSE_CANCELED,
      alGet_alPut_self .., rfl, ?_, fun hzero => rfl⟩
    intro hpos
    omega

/-- C2 witness: allotting the Java course with one registration and
min_employees 1 confirms the course and the registration. -/
theorem C2_witness :
    ∃ c2, getCourse exS4 exCid = some c2 ∧ c2.is_allotted = true ∧
      (0 < (rowsFor exS2.regs exCid).length →
        c2.course_status =
          some (allotFinalStatus
            { course_id := exCid, course_name := str "Java",
              instructor_name := str "James", start_date := exStart,
              min_employees := 1, max_employees := 3, current_count := 1,
              is_allotted := false, course_status := none }
            (rowsFor exS2.regs exCid).length) ∧
        ∀ k r, alGet exS4.regs k = some r → k.1 = exCid →
          r.status = allotFinalStatus
            { course_id := exCid, course_name := str "Java",
              instructor_name := str "James", start_date := exStart,
              min_employees := 1, max_employees := 3, current_count := 1,
              is_allotted := false, course_status := none }
            (rowsFor exS2.regs exCid).length) ∧
      ((rowsFor exS2.regs exCid).length = 0 →
        c2.course_status = some .COURSE_CANCELED) :=
  C2_thm exCid exToday exS2
    [{ registration_id := exRid, email := str "andy1@gmail.com",
       course_name := str "Java", course_id := exCid, status := .CONFIRMED }]
    exS4
    { course_id := exCid, course_name := str "Java", instructor_name := str "James",
      start_date := exStart, min_employees := 1, max_employees := 3,
      current_count := 1, is_allotted := false, course_status := none }
    (by decide) (by decide)

/-! ### C9 -/

/-- C9: the response list of a successful allot with at least one registration
is sorted by registration_id ascending and is a permutation of the queried
registrations of the course, each entry carrying the final status. -/
theorem C9_thm (cid : Str) (t : Date3) (s : Store) (l : List AllotEntry)
    (s1 : Store) (course : CourseItem)
    (hok : allotCourse cid t s = (.ok l, s1))
    (hc : getCourse s cid = some course)
    (hne : rowsFor s.regs cid ≠ []) :
    List.Sorted entryLe l ∧
    List.Perm l ((rowsFor s.regs cid).map
      (allotEntryOf course.course_name cid
        (allotFinalStatus course (rowsFor s.regs cid).length))) ∧
    ∀ x ∈ l, x.status = allotFinalStatus course (rowsFor s.regs cid).length := by
  obtain ⟨course2, hc2, ha, hd, hf, hl, hcase⟩ := allot_ok_inv hok
  rw [hc] at hc2
  injection hc2 with hc2
  subst hc2
  subst hl
  refine ⟨List.sorted_insertionSort entryLe _, List.perm_insertionSort entryLe _, ?_⟩
  intro x hx
  have hx2 : x ∈ (rowsFor s.regs cid).map
      (allotEntryOf course.course_name cid
        (allotFinalStatus course (rowsFor s.regs cid).length)) :=
    (List.perm_insertionSort entryLe _).mem_iff.mp hx
  obtain ⟨r, hr, hxr⟩ := List.mem_map.mp hx2
  rw [← hxr]
  rfl

/-- C9 witness: the response of allotting the Java course is the singleton
list of the single registration, trivially sorted and carrying CONFIRMED. -/
theorem C9_witness :
    List.Sorted entryLe
      [{ registration_id := exRid, email := str "andy1@gmail.com",
         course_name := str "Java", course_id := exCid,
         status := .CONFIRMED : AllotEntry }] ∧
    List.Perm
      [{ registration_id := exRid, email := str "andy1@gmail.com",
         course_name := str "Java", course_id := exCid,
         status := .CONFIRMED : AllotEntry }]
      ((rowsFor exS2.regs exCid).map
        (allotEntryOf (str "Java") exCid
          (allotFinalStatus
            { course_id := exCid, course_name := str "Java",
              instructor_name := str "James", start_date := exStart,
              min_employees := 1, max_employees := 3, current_count := 1,
              is_allotted := false, course_status := none }
            (rowsFor exS2.regs exCid).length))) ∧
    ∀ x ∈ [{ registration_id := exRid, email := str "andy1@gmail.com",
             course_name := str "Java", course_id := exCid,
             status := .CONFIRMED : AllotEntry }],
      x.status = allotFinalStatus
        { course_id := exCid, course_name := str "Java",
          instructor_name := str "James", start_date := exStart,
          min_employees := 1, max_employees := 3, current_count := 1,
          is_allotted := false, course_status := none }
        (rowsFor exS2.regs exCid).length :=
  C9_thm exCid exToday exS2
    [{ registration_id := exRid, email := str "andy1@gmail.com",
       course_name := str "Java", course_id := exCid, status := .CONFIRMED }]
    exS4
    { course_id := exCid, course_name := str "Java", instructor_name := str "James",
      start_date := exStart, min_employees := 1, max_employees := 3,
      current_count := 1, is_allotted := false, course_status := none }
    (by decide) (by decide) (by decide)

/-! ### C3 -/

/-- C3 counterexample: two successful registrations with the same uppercased
employee name but different emails leave current_count at 2 while only one
registration-by-course row exists (the second Put overwrote the first row),
refuting the claimed equality after every sequence of successful operations. -/
theorem C3_cex :
    (registerForCourse exCid (str "Andy") (str "andy1@gmail.com") (str "t1") exS1).1 =
      .ok exRid ∧
    (registerForCourse exCid (str "ANDY") (str "andy2@gmail.com") (str "t2") exS2).1 =
      .ok exRid ∧
    (getCourse exS3 exCid).map CourseItem.current_count = some 2 ∧
    keyCount exS3.regs exCid = 1 := by
  decide

/-- C3 amended: in every reachable store, each course has current_count at
least the number of registration-by-course rows in its partition; equality can
fail because a registration whose uppercased employee name collides with an
existing row overwrites that row while still incrementing the counter. -/
theorem C3_thm (s : Store) (h : Reach s) (cid : Str) (c : CourseItem)
    (hc : getCourse s cid = some c) :
    (keyCount s.regs cid : Int) ≤ c.current_count :=
  (reach_storeInv s h).2.2 cid c hc

/-- C3 witness: the store reached by create then register has one
registration row and counter 1 for the Java course. -/
theorem C3_witness : (keyCount exS2.regs exCid : Int) ≤ 1 := by
  have h1 : Reach exS1 := Reach.step emptyStore
    (.create (str "Java") (str "James") exStart 1 3 exToday) Reach.init
  have h2 : Reach exS2 := Reach.step exS1
    (.register exCid (str "Andy") (str "andy1@gmail.com") (str "t1")) h1
  exact C3_thm exS2 h2 exCid
    { course_id := exCid, course_name := str "Java", instructor_name := str "James",
      start_date := exStart, min_employees := 1, max_employees := 3,
      current_count := 1, is_allotted := false, course_status := none }
    (by decide)

/-! ### C4 -/

/-- C4 counterexample: course OFFERING-J-K and course OFFERING-OFFERING-J-K
both exist, and employee A-OFFERING registers for the first while employee A
is registered for the second; both derive the same registration id.  The
cancel of that id succeeds but resolves to the second course, so after the
successful register followed by the successful cancel of that same
registration id, the first course keeps current_count 1 (pre-registration
value was 0) and still contains the registration-by-course row. -/
theorem C4_cex :
    (getCourse c4S3 c4CidA).map CourseItem.current_count = some 0 ∧
    (registerForCourse c4CidA (str "A-OFFERING") (str "e1@x.com") (str "t") c4S3).1 =
      .ok c4Rid ∧
    (cancelRegistration c4Rid c4S4).1 = .accepted c4Rid c4CidB ∧
    (getCourse c4S5 c4CidA).map CourseItem.current_count = some 1 ∧
    (getReg c4S5 c4CidA c4Rid).isSome = true := by
  decide

/-- C4 amended: when the derived registration id parses back to the
registering course (as always holds for hyphen-free employee names), a
successful register followed by the cancel of that registration id is
accepted and restores the state: the counter returns to its pre-registration
value and both denormalized rows are gone. -/
theorem C4_thm (c n e ts : Str) (s : Store) (rid : Str) (s1 : Store)
    (course : CourseItem)
    (hok : registerForCourse c n e ts s = (.ok rid, s1))
    (hc : getCourse s c = some course)
    (hfmt : isValidRegistrationIdFormat rid = true)
    (hext : extractCourseIdFromRegistration rid = c) :
    ∃ s2, cancelRegistration rid s1 = (.accepted rid c, s2) ∧
      (∃ c2, getCourse s2 c = some c2 ∧ c2.current_count = course.current_count) ∧
      getReg s2 c rid = none ∧
      getEmp s2 (upper (trimStr e)) c = none := by
  obtain ⟨course2, hc2, ha, hcanc, hemp, hfull, hf, hrid, hs1⟩ := register_ok_inv hok
  rw [hc] at hc2
  injection hc2 with hc2
  subst hc2
  have hreg : getReg s1 c rid = some (newRegItem rid (trimStr n) (trimStr e) c ts) := by
    rw [hs1]
    exact alGet_alPut_self ..
  have hcrs : getCourse s1 c = some (incCourseItem course) := by
    rw [hs1]
    exact alGet_alPut_self ..
  have hrm : getReg s1 (extractCourseIdFromRegistration rid) rid =
      some (newRegItem rid (trimStr n) (trimStr e) c ts) := by
    rw [hext]
    exact hreg
  have hcm : getCourse s1 (extractCourseIdFromRegistration rid) =
      some (incCourseItem course) := by
    rw [hext]
    exact hcrs
  have hcan := cancel_exec_accepted rid s1
    (newRegItem rid (trimStr n) (trimStr e) c ts) (incCourseItem course)
    hfmt hrm hcm (show course.is_allotted = false from ha)
  rw [hext] at hcan
  refine ⟨_, hcan, ⟨decCourseItem (incCourseItem course), ?_, ?_⟩, ?_, ?_⟩
  . exact alGet_alPut_self ..
  . show course.current_count + 1 - 1 = course.current_count
    omega
  . exact alGet_alDel_self ..
  . exact alGet_alDel_self ..

/-- C4 witness: Andy registers for the Java course and immediately cancels;
the counter returns to 0 and both rows are gone. -/
theorem C4_witness :
    ∃ s2, cancelRegistration exRid exS2 = (.accepted exRid exCid, s2) ∧
      (∃ c2, getCourse s2 exCid = some c2 ∧ c2.current_count = 0) ∧
      getReg s2 exCid exRid = none ∧
      getEmp s2 (upper (trimStr (str "andy1@gmail.com"))) exCid = none :=
  C4_thm exCid (str "Andy") (str "andy1@gmail.com") (str "t1") exS1 exRid exS2
    { course_id := exCid, course_name := str "Java", instructor_name := str "James",
      start_date := exStart, min_employees := 1, max_employees := 3,
      current_count := 0, is_allotted := false, course_status := none }
    (by decide) (by decide) (by decide) (by decide)

/-! ### C10 -/

/-- C10: the duplicate-registration guard keys only on the uppercased email.
First part: after a successful registration, a second register on the same
course whose email differs only in letter case fails with the duplicate
conflict.  Second part: a second register with the same uppercased employee
name but a genuinely different email (not otherwise registered) passes the
duplicate check and commits, producing the same registration id, overwriting
the by-course row with the new email, leaving the row count unchanged while
incrementing current_count a second time. -/
theorem C10_thm :
    (∀ c n1 e1 ts1 n2 e2 ts2 s rid1 s1,
      registerForCourse c n1 e1 ts1 s = (.ok rid1, s1) →
      upper (trimStr e2) = upper (trimStr e1) →
      ¬ (n2 = [] ∨ e2 = [] ∨ c = []) →
      ¬ (trimStr n2 = [] ∨ trimStr e2 = []) →
      isValidEmail (trimStr e2) = true →
      registerForCourse c n2 e2 ts2 s1 = (.duplicateErr, s1)) ∧
    (∀ c n1 e1 ts1 n2 e2 ts2 s rid1 s1 course,
      getCourse s c = some course →
      registerForCourse c n1 e1 ts1 s = (.ok rid1, s1) →
      upper (trimStr n2) = upper (trimStr n1) →
      upper (trimStr e2) ≠ upper (trimStr e1) →
      getEmp s (upper (trimStr e2)) c = none →
      course.current_count + 1 < course.max_employees →
      ¬ (n2 = [] ∨ e2 = [] ∨ c = []) →
      ¬ (trimStr n2 = [] ∨ trimStr e2 = []) →
      isValidEmail (trimStr e2) = true →
      ∃ s2, registerForCourse c n2 e2 ts2 s1 = (.ok rid1, s2) ∧
        getReg s2 c rid1 = some (newRegItem rid1 (trimStr n2) (trimStr e2) c ts2) ∧
        keyCount s2.regs c = keyCount s1.regs c ∧
        ∃ c2, getCourse s2 c = some c2 ∧
          c2.current_count = course.current_count + 2) := by
  constructor
  . intro c n1 e1 ts1 n2 e2 ts2 s rid1 s1 hok hee hne2 hte2 hem2
    obtain ⟨course, hc, ha, hcanc, hemp, hfull, hfmt, hrid, hs1⟩ := register_ok_inv hok
    have hcrs : getCourse s1 c = some (incCourseItem course) := by
      rw [hs1]
      exact alGet_alPut_self ..
    have hdup : (getEmp s1 (upper (trimStr e2)) c).isSome = true := by
      rw [hs1, hee]
      show (alGet (alPut s.emps (upper (trimStr e1), c)
        (newEmpItem rid1 (trimStr n1) c)) (upper (trimStr e1), c)).isSome = true
      rw [alGet_alPut_self]
      rfl
    exact register_exec_dup c n2 e2 ts2 s1 (incCourseItem course) hne2 hte2 hem2 hfmt
      hcrs (show course.course_status ≠ some .COURSE_CANCELED from hcanc)
      (show course.is_allotted = false from ha) hdup
  . intro c n1 e1 ts1 n2 e2 ts2 s rid1 s1 course hc hok hnn hne hdup0 hroom hne2 hte2 hem2
    obtain ⟨course2, hc2, ha, hcanc, hemp, hfull, hfmt, hrid, hs1⟩ := register_ok_inv hok
    rw [hc] at hc2
    injection hc2 with hc2
    subst hc2
    have hcrs : getCourse s1 c = some (incCourseItem course) := by
      rw [hs1]
      exact alGet_alPut_self ..
    have hdup1 : getEmp s1 (upper (trimStr e2)) c = none := by
      rw [hs1]
      show alGet (alPut s.emps (upper (trimStr e1), c)
        (newEmpItem rid1 (trimStr n1) c)) (upper (trimStr e2), c) = none
      rw [alGet_alPut_ne s.emps (upper (trimStr e1), c) (upper (trimStr e2), c)
        (newEmpItem rid1 (trimStr n1) c) (fun hx => hne (congrArg Prod.fst hx))]
      exact hdup0
    have hexec := register_exec c n2 e2 ts2 s1 (incCourseItem course) hne2 hte2 hem2 hfmt
      hcrs (show course.course_status ≠ some .COURSE_CANCELED from hcanc)
      (show course.is_allotted = false from ha) hdup1
      (show course.current_count + 1 < course.max_employees from hroom)
    have hrid2 : generateRegistrationId (trimStr n2) c = rid1 := by
      rw [hrid]
      unfold generateRegistrationId
      rw [hnn]
    rw [hrid2] at hexec
    refine ⟨_, hexec, ?_, ?_, ?_⟩
    . exact alGet_alPut_self ..
    . show keyCount (alPut s1.regs (c, rid1)
        (newRegItem rid1 (trimStr n2) (trimStr e2) c ts2)) c = keyCount s1.regs c
      apply keyCount_alPut_some s1.regs (c, rid1) _
        (newRegItem rid1 (trimStr n1) (trimStr e1) c ts1)
      rw [hs1]
      exact alGet_alPut_self ..
    . refine ⟨incCourseItem (incCourseItem course), alGet_alPut_self .., ?_⟩
      show course.current_count + 1 + 1 = course.current_count + 2
      omega

/-- C10 witness: on the concrete Java store, a second register with the same
email in different letter case is rejected as duplicate, and the second ANDY
with a new email is committed under the same registration id, overwriting the
by-course row and leaving a single row with counter 2. -/
theorem C10_witness :
    registerForCourse exCid (str "Bob") (str "Andy1@GMAIL.com") (str "t3") exS2 =
      (.duplicateErr, exS2) ∧
    ∃ s2, registerForCourse exCid (str "ANDY") (str "andy2@gmail.com") (str "t2") exS2 =
        (.ok exRid, s2) ∧
      getReg s2 exCid exRid =
        some (newRegItem exRid (trimStr (str "ANDY")) (trimStr (str "andy2@gmail.com"))
          exCid (str "t2")) ∧
      keyCount s2.regs exCid = keyCount exS2.regs exCid ∧
      ∃ c2, getCourse s2 exCid = some c2 ∧ c2.current_count = 0 + 2 := by
  constructor
  . exact C10_thm.1 exCid (str "Andy") (str "andy1@gmail.com") (str "t1")
      (str "Bob") (str "Andy1@GMAIL.com") (str "t3") exS1 exRid exS2
      (by decide) (by decide) (by decide) (by decide) (by decide)
  . exact C10_thm.2 exCid (str "Andy") (str "andy1@gmail.com") (str "t1")
      (str "ANDY") (str "andy2@gmail.com") (str "t2") exS1 exRid exS2
      { course_id := exCid, course_name := str "Java", instructor_name := str "James",
        start_date := exStart, min_employees := 1, max_employees := 3,
        current_count := 0, is_allotted := false, course_status := none }
      (by decide) (by decide) (by decide) (by decide) (by decide) (by decide)
      (by decide) (by decide) (by decide)
